import Mathlib

set_option maxRecDepth 16000
set_option exponentiation.threshold 10000
set_option linter.unnecessarySeqFocus false

/-!
Verification of the x402-Solana payment core against its specification.

This file shallowly embeds the core of the x402-Solana repository:

* `packages/core` (`types.ts`, `utils.ts`): requirement validation, the
  `toAtomicUnits` conversion, base58 address validity, the payment-header
  codec (`encodePaymentPayload` / `decodePaymentPayload`);
* `packages/solana-scheme` (`solana-transfer.ts`, `solana-spl.ts`):
  `verifyPayment` and `settlePayment` of both scheme engines;
* `packages/facilitator` (`facilitator-service.ts`): scheme routing,
  `getSupportedSchemes`, verification and settlement responses.

Modelling conventions:

* JavaScript IEEE-754 binary64 numbers are embedded exactly: every finite
  double in range is `(-1)^neg * M * 2^(-1074)` for a natural number
  `M < 2^2098`, so a double is `nan`, `inf neg`, or `fin neg M`.  Rounding
  (round-to-nearest, ties-to-even, with subnormal and overflow handling)
  is implemented over exact natural-number arithmetic.
* JavaScript strings are Lean `String`s except in the wire codec, where
  they are lists of UTF-16 code units (natural numbers below 2^16).
* Thrown JS exceptions become `Except`/`Option` values; the distinct
  human-readable reason strings of the source become constructors of an
  inductive `Reason` type (the map from constructors to the source's
  message strings is injective).
* The chain adapter (`Connection`) is a parameter: settlement takes a
  `ChainView` of oracle answers and additionally returns the list of
  transactions it submitted via `sendRawTransaction`, so "no submission
  happened" is an inspectable fact.
* `Date.now()` is an explicit `now : ℤ` argument (milliseconds).
-/
/-! ## Exact model of IEEE-754 binary64 (JavaScript `number`) -/
/-- Binary-search step for `bitLen`: with invariant `2^lo ≤ n < 2^hi`,
narrow the window until `hi = lo + 1`. -/
def bitLenGo : ℕ → ℕ → ℕ → ℕ → ℕ
  | 0, _, hi, _ => hi
  | f + 1, lo, hi, n =>
    if hi ≤ lo + 1 then hi
    else
      let mid := (lo + hi) / 2
      if n < 2 ^ mid then bitLenGo f lo mid n else bitLenGo f mid hi n

/-- Number of binary digits of `n` (0 for `n = 0`): the least `b` with
`n < 2^b`.  Defined by binary search so that kernel reduction stays
shallow. -/
def bitLen (n : ℕ) : ℕ := if n = 0 then 0 else bitLenGo 20 0 4096 n

/-- Whether `2^l ≤ n/d`, for positive naturals `n`, `d`. -/
def le2powB (l : ℤ) (n d : ℕ) : Bool :=
  if 0 ≤ l then d * 2 ^ l.toNat ≤ n else d ≤ n * 2 ^ (-l).toNat

/-- Floor of the base-2 logarithm of the positive rational `n/d`. -/
def floorLog2 (n d : ℕ) : ℤ :=
  let c : ℤ := (bitLen n : ℤ) - (bitLen d : ℤ)
  if le2powB c n d then c else c - 1

/-- Round `a/b` (with `b > 0`) to the nearest natural, ties to even. -/
def rneDiv (a b : ℕ) : ℕ :=
  let q := a / b
  let r := a % b
  if 2 * r < b then q
  else if b < 2 * r then q + 1
  else if q % 2 = 0 then q else q + 1

/-- Round the nonnegative rational `n/d` to the nearest binary64 value,
returned as the scaled integer `M` (the value is `M * 2^(-1074)`).  The
exponent clamp at `-1074` realises subnormal rounding; overflow is cut
off by the caller. -/
def roundM (n d : ℕ) : ℕ :=
  if n = 0 then 0
  else
    let e : ℤ := max (floorLog2 n d - 52) (-1074)
    let m : ℕ := if 0 ≤ e then rneDiv n (d * 2 ^ e.toNat) else rneDiv (n * 2 ^ (-e).toNat) d
    m * 2 ^ (e + 1074).toNat

/-- A JavaScript number: NaN, a signed infinity, or a finite double
`(-1)^neg * M * 2^(-1074)`. -/
inductive JsNum where
  | nan : JsNum
  | inf (neg : Bool) : JsNum
  | fin (neg : Bool) (M : ℕ) : JsNum
deriving DecidableEq

/-- Round the rational `(-1)^neg * n/d` to a double, with overflow to
infinity (the IEEE round-to-nearest overflow threshold is reached exactly
when the rounded magnitude is `2^1024`, i.e. `M = 2^2098`). -/
def roundToDouble (neg : Bool) (n d : ℕ) : JsNum :=
  let M := roundM n d
  if 2 ^ 2098 ≤ M then .inf neg else .fin neg M

/-- JavaScript multiplication of two doubles. -/
def jsMul : JsNum → JsNum → JsNum
  | .nan, _ => .nan
  | _, .nan => .nan
  | .inf s, .inf t => .inf (xor s t)
  | .inf s, .fin t M => if M = 0 then .nan else .inf (xor s t)
  | .fin s M, .inf t => if M = 0 then .nan else .inf (xor s t)
  | .fin s M, .fin t N => roundToDouble (xor s t) (M * N) (2 ^ 2148)

/-- JavaScript `Math.floor` on a double (exact: the floor of a finite
double is always representable). -/
def jsFloor : JsNum → JsNum
  | .nan => .nan
  | .inf s => .inf s
  | .fin false M => .fin false (M / 2 ^ 1074 * 2 ^ 1074)
  | .fin true M => .fin true ((M + 2 ^ 1074 - 1) / 2 ^ 1074 * 2 ^ 1074)

/-- JavaScript `BigInt(x)` on a number `x`: defined exactly on integral
finite doubles, a thrown `RangeError` (modelled `none`) otherwise. -/
def bigIntOfJsNum : JsNum → Option ℤ
  | .nan => none
  | .inf _ => none
  | .fin neg M =>
    if M % 2 ^ 1074 = 0 then
      some (if neg then -((M / 2 ^ 1074 : ℕ) : ℤ) else ((M / 2 ^ 1074 : ℕ) : ℤ))
    else none

/-- Whether the double is `≤ 0` (JS comparison; false for NaN). -/
def jsLeZero : JsNum → Bool
  | .nan => false
  | .inf neg => neg
  | .fin neg M => neg || M = 0

/-- A decimal-string literal `intDigits.fracDigits` (e.g. `"0.01"` is
`⟨[0], [0, 1]⟩`, `"1"` is `⟨[1], []⟩`).  This is the sublanguage of
strings the spec's `maxAmountRequired` ranges over; both digit lists
empty models the empty string. -/
structure DecimalString where
  intDigits : List ℕ
  fracDigits : List ℕ
deriving DecidableEq

/-- The natural number denoted by a list of decimal digits. -/
def digitsToNat (ds : List ℕ) : ℕ := ds.foldl (fun acc d => 10 * acc + d) 0

/-- The exact rational value of the decimal string, as numerator over
`10 ^ (number of fractional digits)`. -/
def DecimalString.numerator (d : DecimalString) : ℕ :=
  digitsToNat d.intDigits * 10 ^ d.fracDigits.length + digitsToNat d.fracDigits

def DecimalString.denominator (d : DecimalString) : ℕ := 10 ^ d.fracDigits.length

/-- JavaScript `parseFloat` on a decimal string: NaN when there are no
digits at all, otherwise the decimal value correctly rounded to a
double. -/
def parseFloatD (d : DecimalString) : JsNum :=
  if d.intDigits = [] ∧ d.fracDigits = [] then .nan
  else roundToDouble false d.numerator d.denominator

/-- JavaScript `Math.pow(10, k)`: correctly rounded power of ten. -/
def jsPow10 (k : ℕ) : JsNum := roundToDouble false (10 ^ k) 1

/-- Model of `toAtomicUnits` (`packages/core/src/utils.ts`):
`BigInt(Math.floor(amount * Math.pow(10, decimals)))`.  `none` models the
`RangeError` thrown by `BigInt` on NaN/infinite input. -/
def toAtomicUnits (amount : JsNum) (decimals : ℕ) : Option ℤ :=
  bigIntOfJsNum (jsFloor (jsMul amount (jsPow10 decimals)))

/-- The exact atomic value of a decimal string at `decimals` decimals
(the spec's `toAtomic`), when it is integral. -/
def exactAtomic (d : DecimalString) (decimals : ℕ) : Option ℤ :=
  if (d.numerator * 10 ^ decimals) % d.denominator = 0 then
    some ((d.numerator * 10 ^ decimals / d.denominator : ℕ) : ℤ)
  else none

/-! ## Base58 and Solana address validity (`isValidSolanaAddress`) -/
/-- The bitcoin base58 alphabet used by `bs58`. -/
def base58Alphabet : List Char :=
  "123456789ABCDEFGHJKLMNPQRSTUVWXYZabcdefghijkmnopqrstuvwxyz".data

/-- Search for a character in an alphabet list, returning its index. -/
def charIndexIn (c : Char) : List Char → ℕ → Option ℕ
  | [], _ => none
  | d :: ds, i => if c = d then some i else charIndexIn c ds (i + 1)

/-- Index of a character in the base58 alphabet, if present. -/
def base58Index (c : Char) : Option ℕ :=
  charIndexIn c base58Alphabet 0

/-- Value of a base58 digit string, `none` on a non-alphabet character. -/
def base58Val : List Char → Option ℕ
  | [] => some 0
  | c :: cs =>
    match base58Index c, base58Val cs with
    | some i, some v => some (i * 58 ^ cs.length + v)
    | _, _ => none

/-- Number of leading `'1'` characters (each decodes to one zero byte). -/
def leadingBase58Zeros : List Char → ℕ
  | [] => 0
  | c :: cs => if c = '1' then leadingBase58Zeros cs + 1 else 0

/-- Byte length of the `bs58` decoding of the string: leading-zero bytes
plus the minimal big-endian representation of the remaining value. -/
def base58DecodedLen (cs : List Char) : Option ℕ :=
  match base58Val cs with
  | none => none
  | some v => some (leadingBase58Zeros cs + (bitLen v + 7) / 8)

/-- Model of `isValidSolanaAddress` / the `new PublicKey(address)`
constructor (`packages/core/src/utils.ts`): the string must be base58 and
decode to exactly 32 bytes. -/
def isValidSolanaAddress (s : String) : Bool :=
  match base58DecodedLen s.data with
  | some 32 => true
  | _ => false

/-! ## Error taxonomy -/
/-- The machine-readable codes of `X402Error` thrown by the core
validators (`packages/core/src/types.ts` / `utils.ts`). -/
inductive X402ErrorCode where
  | INVALID_SCHEME | INVALID_NETWORK | INVALID_PAY_TO
  | MISSING_ASSET | INVALID_ASSET_SCHEME | INVALID_AMOUNT
  | INVALID_ADDRESS | INVALID_PAYLOAD | UNSUPPORTED_NETWORK
deriving DecidableEq

/-- A JS exception caught by one of the engines' try/catch blocks. -/
inductive ThrownErr where
  | invalidAddress (addr : String)
  | bigIntRange
  | chainError (msg : String)
  | invalidPayload
deriving DecidableEq

/-- The human-readable reasons produced by the engines and the
facilitator.  Each constructor corresponds to one distinct message string
of the source (noted in comments); the correspondence is injective, so
equality of constructors models equality of the strings. -/
inductive Reason where
  | invalidScheme                        -- "Invalid scheme"
  | invalidSignatureFormat               -- "Invalid signature format"
  | mintMismatch                         -- "Mint mismatch"
  | invalidFromTokenAccount              -- "Invalid from token account"
  | invalidToTokenAccount                -- "Invalid to token account"
  | insufficientAmount                   -- "Insufficient payment amount"
  | payloadExpired                       -- "Payment payload expired"
  | verificationError (e : ThrownErr)    -- `Verification error: ...`
  | settlementError (e : ThrownErr)      -- `Settlement error: ...`
  | unsupportedVersion (v : ℤ)           -- `Unsupported x402 version: ...`
  | schemeMismatch                       -- "Payment scheme mismatch"
  | networkMismatch                      -- "Payment network mismatch"
  | unsupportedScheme (s : String)       -- `Unsupported payment scheme: ...`
  | unsupportedNetwork (n : String)      -- `Unsupported network: ...`
  | verificationFailed (e : ThrownErr)   -- `Verification failed: ...`
  | settlementFailed (e : ThrownErr)     -- `Settlement failed: ...`
deriving DecidableEq

/-! ## Data model (`packages/core/src/types.ts`) -/
/-- `SolanaPaymentRequirement`.  `maxAmountRequired` is restricted to the
decimal-string sublanguage `DecimalString` that the spec's field ranges
over; the `extra` object is flattened into its three optional fields. -/
structure SolanaPaymentRequirement where
  scheme : String
  network : String
  maxAmountRequired : DecimalString
  resource : String
  description : String
  mimeType : String
  payTo : String
  maxTimeoutSeconds : ℤ
  asset : String
  feePayer : Option String := none
  priorityFee : Option ℤ := none
  memo : Option String := none
deriving DecidableEq

/-- `PaymentPayload` envelope with a scheme-specific payload. -/
structure PaymentPayload (α : Type) where
  x402Version : ℤ
  scheme : String
  network : String
  payload : α
deriving DecidableEq

/-- `SolanaTransferPayload`.  `from` is a Lean keyword, hence `fromAddr`;
`amount` (a decimal integer string in the source, read through
`BigInt(payload.amount)`) is modelled by its integer value. -/
structure SolanaTransferPayload where
  fromAddr : String
  signature : String
  amount : ℤ
  timestamp : ℤ
  nonce : Option String := none
deriving DecidableEq

/-- `SolanaSPLPayload` (extends the transfer payload). -/
structure SolanaSPLPayload where
  fromAddr : String
  signature : String
  amount : ℤ
  timestamp : ℤ
  nonce : Option String := none
  mint : String
  fromTokenAccount : String
  toTokenAccount : String
deriving DecidableEq

/-- `SOLANA_NETWORKS` (`packages/core/src/types.ts`): note the constant
lists only mainnet and devnet. -/
def SOLANA_NETWORKS : List String := ["solana-mainnet", "solana-devnet"]

/-- `SOLANA_SCHEMES` (`packages/core/src/types.ts`). -/
def SOLANA_SCHEMES : List String := ["solana-transfer", "solana-spl"]

def USDC_MINT_MAINNET : String := "EPjFWdd5AufqSSqeM2qN1xzybapC8G4wEGGkZwyTDt1v"

def USDC_MINT_DEVNET : String := "4zMMC9srt5Ri5X14GAgXhaHii3GnPAEERYPJgZJDncDU"

/-! ## Requirement validation (`packages/core/src/utils.ts`) -/
/-- Whether `pre` is a prefix of `cs` (model of `String.startsWith`). -/
def prefixOfList : List Char → List Char → Bool
  | [], _ => true
  | _, [] => false
  | c :: cs, d :: ds => c = d && prefixOfList cs ds

/-- Model of `network.startsWith('solana-')`. -/
def strStartsWith (s pre : String) : Bool := prefixOfList pre.data s.data

/-- Model of `validatePaymentRequirement`.  The source throws
`X402Error`s or returns void; here the result is the thrown code, if
any (`none` means the requirement was accepted).  JS truthiness
checks (`!requirement.scheme` etc.) collapse into the tests shown: an
empty scheme is not in the scheme list, an empty network does not start
with `"solana-"`, an empty payTo is not a valid address. -/
def validatePaymentRequirement (r : SolanaPaymentRequirement) : Option X402ErrorCode :=
  if ¬(r.scheme = "solana-transfer" ∨ r.scheme = "solana-spl") then some .INVALID_SCHEME
  else if ¬(strStartsWith r.network "solana-" = true) then some .INVALID_NETWORK
  else if ¬(isValidSolanaAddress r.payTo = true) then some .INVALID_PAY_TO
  else if r.asset = "" then some .MISSING_ASSET
  else if r.scheme = "solana-spl" ∧ r.asset = "SOL" then some .INVALID_ASSET_SCHEME
  else if r.scheme = "solana-transfer" ∧ r.asset ≠ "SOL" then some .INVALID_ASSET_SCHEME
  else if parseFloatD r.maxAmountRequired = .nan ∨ jsLeZero (parseFloatD r.maxAmountRequired) = true
    then some .INVALID_AMOUNT
  else none

/-- Model of `isValidSignature` (`packages/core/src/utils.ts`): length in
`[87, 88]`.  Note: this helper exists in the core utilities but is not
called by either scheme engine's `verifyPayment`. -/
def isValidSignature (signature : String) : Bool :=
  decide (87 ≤ signature.length ∧ signature.length ≤ 88)

/-! ## Scheme engines (`packages/solana-scheme/src`) -/
/-- Result of `verifyPayment` (`{ isValid, invalidReason? }`). -/
structure VerifyResult where
  isValid : Bool
  invalidReason : Option Reason
deriving DecidableEq

/-- Outcome of the `getAccount` probe on the recipient token account in
`SolanaSPLScheme.settlePayment`: the account exists, the probe threw
`TokenAccountNotFoundError`, or it threw some other error (which the
source swallows without adding a create instruction). -/
inductive AtaProbe where
  | found | notFound | otherError
deriving DecidableEq

/-- The transaction reconstructed by `SolanaTransferScheme.settlePayment`:
a single `SystemProgram.transfer` with `feePayer = from`. -/
structure TransferTx where
  fromAddr : String
  toAddr : String
  lamports : ℤ
  blockhash : String
deriving DecidableEq

/-- The transaction reconstructed by `SolanaSPLScheme.settlePayment`: an
optional `createAssociatedTokenAccount` followed by an SPL transfer. -/
structure SplTx where
  createToATA : Bool
  fromTokenAccount : String
  toTokenAccount : String
  owner : String
  amount : ℤ
  blockhash : String
deriving DecidableEq

/-- The chain adapter as seen by one settlement run: the answers the
`Connection` would give, `τ` being the reconstructed-transaction type. -/
structure ChainView (τ : Type) where
  getTransaction : String → Except ThrownErr (Option Unit)
  getAccount : String → AtaProbe
  latestBlockhash : Except ThrownErr String
  sendRawTransaction : τ → Except ThrownErr String
  confirmTransaction : String → Except ThrownErr Unit

/-- Result of `settlePayment` (`{ success, txHash?, error? }`), extended
with the trace `sent` of transactions passed to `sendRawTransaction`
during the run (so absence of submissions is observable). -/
structure SettleResult (τ : Type) where
  success : Bool
  txHash : Option String
  error : Option Reason
  sent : List τ
deriving DecidableEq

namespace SolanaTransferScheme

/-- Model of `SolanaTransferScheme.verifyPayment`
(`solana-transfer.ts`, lines 98-136).  Checks in source order: scheme tag,
signature length (only the lower bound 87 is tested there), `toPublicKey`
on `payload.from` and `requirement.payTo` (throws become the caught
`Verification error` branch), the amount comparison against
`toAtomicUnits(parseFloat(requirement.maxAmountRequired), 9)`, and the
5-minute freshness window. -/
def verifyPayment (now : ℤ) (pp : PaymentPayload SolanaTransferPayload)
    (req : SolanaPaymentRequirement) : VerifyResult :=
  if pp.scheme ≠ "solana-transfer" then ⟨false, some .invalidScheme⟩
  else if pp.payload.signature.length < 87 then ⟨false, some .invalidSignatureFormat⟩
  else if isValidSolanaAddress pp.payload.fromAddr = false then
    ⟨false, some (.verificationError (.invalidAddress pp.payload.fromAddr))⟩
  else if isValidSolanaAddress req.payTo = false then
    ⟨false, some (.verificationError (.invalidAddress req.payTo))⟩
  else
    match toAtomicUnits (parseFloatD req.maxAmountRequired) 9 with
    | none => ⟨false, some (.verificationError .bigIntRange)⟩
    | some requiredAmount =>
      if pp.payload.amount < requiredAmount then ⟨false, some .insufficientAmount⟩
      else if 300000 < now - pp.payload.timestamp then ⟨false, some .payloadExpired⟩
      else ⟨true, none⟩

/-- Model of `SolanaTransferScheme.settlePayment`
(`solana-transfer.ts`, lines 141-193): re-verify; probe
`getTransaction(payload.signature)` (a found transaction returns success
with the payload signature, both `null` and a thrown probe error fall
through); reconstruct the transfer with a fresh blockhash; submit;
confirm. -/
def settlePayment (now : ℤ) (chain : ChainView TransferTx)
    (pp : PaymentPayload SolanaTransferPayload) (req : SolanaPaymentRequirement) :
    SettleResult TransferTx :=
  let verification := verifyPayment now pp req
  if verification.isValid = false then
    ⟨false, none, verification.invalidReason, []⟩
  else
    match chain.getTransaction pp.payload.signature with
    | .ok (some _) => ⟨true, some pp.payload.signature, none, []⟩
    | _ =>
      if isValidSolanaAddress pp.payload.fromAddr = false then
        ⟨false, none, some (.settlementError (.invalidAddress pp.payload.fromAddr)), []⟩
      else if isValidSolanaAddress req.payTo = false then
        ⟨false, none, some (.settlementError (.invalidAddress req.payTo)), []⟩
      else
        match chain.latestBlockhash with
        | .error e => ⟨false, none, some (.settlementError e), []⟩
        | .ok blockhash =>
          let tx : TransferTx := ⟨pp.payload.fromAddr, req.payTo, pp.payload.amount, blockhash⟩
          match chain.sendRawTransaction tx with
          | .error e => ⟨false, none, some (.settlementError e), [tx]⟩
          | .ok signature =>
            match chain.confirmTransaction signature with
            | .error e => ⟨false, none, some (.settlementError e), [tx]⟩
            | .ok _ => ⟨true, some signature, none, [tx]⟩

end SolanaTransferScheme

namespace SolanaSPLScheme

/-- Model of `SolanaSPLScheme.verifyPayment` (`solana-spl.ts`, lines
121-178).  `ata` is the pure associated-token-address derivation
`getAssociatedTokenAddress(mint, owner)` of `@solana/spl-token` (a
deterministic program-derived address, passed in as a parameter);
`tokenDecimals` is resolved by the facilitator. -/
def verifyPayment (ata : String → String → String) (now : ℤ)
    (pp : PaymentPayload SolanaSPLPayload) (req : SolanaPaymentRequirement)
    (tokenDecimals : ℕ) : VerifyResult :=
  if pp.scheme ≠ "solana-spl" then ⟨false, some .invalidScheme⟩
  else if pp.payload.signature.length < 87 then ⟨false, some .invalidSignatureFormat⟩
  else if pp.payload.mint ≠ req.asset then ⟨false, some .mintMismatch⟩
  else if isValidSolanaAddress pp.payload.fromAddr = false then
    ⟨false, some (.verificationError (.invalidAddress pp.payload.fromAddr))⟩
  else if isValidSolanaAddress req.payTo = false then
    ⟨false, some (.verificationError (.invalidAddress req.payTo))⟩
  else if isValidSolanaAddress pp.payload.mint = false then
    ⟨false, some (.verificationError (.invalidAddress pp.payload.mint))⟩
  else if pp.payload.fromTokenAccount ≠ ata pp.payload.mint pp.payload.fromAddr then
    ⟨false, some .invalidFromTokenAccount⟩
  else if pp.payload.toTokenAccount ≠ ata pp.payload.mint req.payTo then
    ⟨false, some .invalidToTokenAccount⟩
  else
    match toAtomicUnits (parseFloatD req.maxAmountRequired) tokenDecimals with
    | none => ⟨false, some (.verificationError .bigIntRange)⟩
    | some requiredAmount =>
      if pp.payload.amount < requiredAmount then ⟨false, some .insufficientAmount⟩
      else if 300000 < now - pp.payload.timestamp then ⟨false, some .payloadExpired⟩
      else ⟨true, none⟩

/-- Model of `SolanaSPLScheme.settlePayment` (`solana-spl.ts`, lines
183-261): re-verify; idempotency probe; `getAccount` probe on the
recipient token account (a `TokenAccountNotFoundError` prepends the
create-ATA instruction, other probe errors are swallowed); reconstruct;
submit; confirm. -/
def settlePayment (ata : String → String → String) (now : ℤ)
    (chain : ChainView SplTx) (pp : PaymentPayload SolanaSPLPayload)
    (req : SolanaPaymentRequirement) (tokenDecimals : ℕ) : SettleResult SplTx :=
  let verification := verifyPayment ata now pp req tokenDecimals
  if verification.isValid = false then
    ⟨false, none, verification.invalidReason, []⟩
  else
    match chain.getTransaction pp.payload.signature with
    | .ok (some _) => ⟨true, some pp.payload.signature, none, []⟩
    | _ =>
      if isValidSolanaAddress pp.payload.fromAddr = false then
        ⟨false, none, some (.settlementError (.invalidAddress pp.payload.fromAddr)), []⟩
      else if isValidSolanaAddress req.payTo = false then
        ⟨false, none, some (.settlementError (.invalidAddress req.payTo)), []⟩
      else if isValidSolanaAddress pp.payload.mint = false then
        ⟨false, none, some (.settlementError (.invalidAddress pp.payload.mint)), []⟩
      else if isValidSolanaAddress pp.payload.fromTokenAccount = false then
        ⟨false, none, some (.settlementError (.invalidAddress pp.payload.fromTokenAccount)), []⟩
      else if isValidSolanaAddress pp.payload.toTokenAccount = false then
        ⟨false, none, some (.settlementError (.invalidAddress pp.payload.toTokenAccount)), []⟩
      else
        let createToATA := chain.getAccount pp.payload.toTokenAccount = .notFound
        match chain.latestBlockhash with
        | .error e => ⟨false, none, some (.settlementError e), []⟩
        | .ok blockhash =>
          let tx : SplTx := ⟨createToATA, pp.payload.fromTokenAccount,
            pp.payload.toTokenAccount, pp.payload.fromAddr, pp.payload.amount, blockhash⟩
          match chain.sendRawTransaction tx with
          | .error e => ⟨false, none, some (.settlementError e), [tx]⟩
          | .ok signature =>
            match chain.confirmTransaction signature with
            | .error e => ⟨false, none, some (.settlementError e), [tx]⟩
            | .ok _ => ⟨true, some signature, none, [tx]⟩

end SolanaSPLScheme
namespace FacilitatorService

/-! ## Facilitator service (`packages/facilitator/src/facilitator-service.ts`) -/
/-- One entry of the `/supported` response. -/
structure SupportedScheme where
  scheme : String
  network : String
deriving DecidableEq

/-- Model of `FacilitatorService.getSupportedSchemes` (lines 42-53): for
each network in `SOLANA_NETWORKS`, for each scheme in `SOLANA_SCHEMES`,
push `{scheme, network}`. -/
def getSupportedSchemes : List SupportedScheme :=
  SOLANA_NETWORKS.flatMap fun network => SOLANA_SCHEMES.map fun scheme => ⟨scheme, network⟩

/-- The `/settle` response shape, extended with the submission trace. -/
structure SettlementResponse (τ : Type) where
  success : Bool
  error : Option Reason
  txHash : Option String
  networkId : Option String
  sent : List τ
deriving DecidableEq

/-- Model of the private `verifyTransferPayment` (lines 183-200): the
engine map holds one `SolanaTransferScheme` per network of
`SOLANA_NETWORKS`, so lookup succeeds exactly on those networks. -/
def verifyTransferPayment (now : ℤ) (pp : PaymentPayload SolanaTransferPayload)
    (req : SolanaPaymentRequirement) : VerifyResult :=
  if SOLANA_NETWORKS.contains req.network = false then
    ⟨false, some (.unsupportedNetwork req.network)⟩
  else
    let result := SolanaTransferScheme.verifyPayment now pp req
    ⟨result.isValid, result.invalidReason⟩

/-- Model of `FacilitatorService.verifyPayment` (lines 58-109) on a
request whose header decodes to a transfer-shaped payload (the source
casts the untyped decoded payload, so this is the domain on which the
transfer route is exercised).  `header` is the outcome of
`decodePaymentPayload(paymentHeader)`: a thrown decode error is `.error`.
Version gate, scheme/network match, then routing. -/
def verifyPayment (now : ℤ) (x402Version : ℤ)
    (header : Except ThrownErr (PaymentPayload SolanaTransferPayload))
    (req : SolanaPaymentRequirement) : VerifyResult :=
  if x402Version ≠ 1 then ⟨false, some (.unsupportedVersion x402Version)⟩
  else
    match header with
    | .error e => ⟨false, some (.verificationFailed e)⟩
    | .ok pp =>
      if pp.scheme ≠ req.scheme then ⟨false, some .schemeMismatch⟩
      else if pp.network ≠ req.network then ⟨false, some .networkMismatch⟩
      else if pp.scheme = "solana-transfer" then verifyTransferPayment now pp req
      else ⟨false, some (.unsupportedScheme pp.scheme)⟩

/-- Model of `FacilitatorService.settlePayment` (lines 114-157) together
with the private `settleTransferPayment` (lines 224-245), on the transfer
route: re-verify through the service, re-decode, route, and wrap the
engine result with `networkId`. -/
def settlePayment (now : ℤ) (chain : ChainView TransferTx) (x402Version : ℤ)
    (header : Except ThrownErr (PaymentPayload SolanaTransferPayload))
    (req : SolanaPaymentRequirement) : SettlementResponse TransferTx :=
  let verification := verifyPayment now x402Version header req
  if verification.isValid = false then
    ⟨false, verification.invalidReason, none, none, []⟩
  else
    match header with
    | .error e => ⟨false, some (.settlementFailed e), none, none, []⟩
    | .ok pp =>
      if pp.scheme = "solana-transfer" then
        if SOLANA_NETWORKS.contains req.network = false then
          ⟨false, some (.unsupportedNetwork req.network), none, none, []⟩
        else
          let result := SolanaTransferScheme.settlePayment now chain pp req
          ⟨result.success, result.error, result.txHash, some req.network, result.sent⟩
      else ⟨false, some (.unsupportedScheme pp.scheme), none, none, []⟩

/-- Model of the private `getTokenDecimals` (lines 273-292): the USDC
stablecoin table first, then the `getTokenMintInfo` oracle (`mintInfo`,
`none` for a thrown error), defaulting to 9 on any failure (including an
absent engine for the network). -/
def getTokenDecimals (mintInfo : String → Option ℕ) (mint network : String) : ℕ :=
  if mint = USDC_MINT_MAINNET ∨ mint = USDC_MINT_DEVNET then 6
  else if SOLANA_NETWORKS.contains network = false then 9
  else
    match mintInfo mint with
    | some d => d
    | none => 9

/-- Model of the private `verifySPLPayment` (lines 202-222). -/
def verifySPLPayment (mintInfo : String → Option ℕ) (ata : String → String → String)
    (now : ℤ) (pp : PaymentPayload SolanaSPLPayload) (req : SolanaPaymentRequirement) :
    VerifyResult :=
  if SOLANA_NETWORKS.contains req.network = false then
    ⟨false, some (.unsupportedNetwork req.network)⟩
  else
    let tokenDecimals := getTokenDecimals mintInfo req.asset req.network
    let result := SolanaSPLScheme.verifyPayment ata now pp req tokenDecimals
    ⟨result.isValid, result.invalidReason⟩

/-- Model of `FacilitatorService.verifyPayment` on a request whose header
decodes to an SPL-shaped payload (the SPL route of the service). -/
def verifyPaymentSPL (mintInfo : String → Option ℕ) (ata : String → String → String)
    (now : ℤ) (x402Version : ℤ)
    (header : Except ThrownErr (PaymentPayload SolanaSPLPayload))
    (req : SolanaPaymentRequirement) : VerifyResult :=
  if x402Version ≠ 1 then ⟨false, some (.unsupportedVersion x402Version)⟩
  else
    match header with
    | .error e => ⟨false, some (.verificationFailed e)⟩
    | .ok pp =>
      if pp.scheme ≠ req.scheme then ⟨false, some .schemeMismatch⟩
      else if pp.network ≠ req.network then ⟨false, some .networkMismatch⟩
      else if pp.scheme = "solana-transfer" then ⟨false, some (.unsupportedScheme pp.scheme)⟩
      else if pp.scheme = "solana-spl" then verifySPLPayment mintInfo ata now pp req
      else ⟨false, some (.unsupportedScheme pp.scheme)⟩

/-- Model of `FacilitatorService.settlePayment` with the private
`settleSPLPayment` (lines 247-271), on the SPL route. -/
def settlePaymentSPL (mintInfo : String → Option ℕ) (ata : String → String → String)
    (now : ℤ) (chain : ChainView SplTx) (x402Version : ℤ)
    (header : Except ThrownErr (PaymentPayload SolanaSPLPayload))
    (req : SolanaPaymentRequirement) : SettlementResponse SplTx :=
  let verification := verifyPaymentSPL mintInfo ata now x402Version header req
  if verification.isValid = false then
    ⟨false, verification.invalidReason, none, none, []⟩
  else
    match header with
    | .error e => ⟨false, some (.settlementFailed e), none, none, []⟩
    | .ok pp =>
      if pp.scheme = "solana-transfer" then ⟨false, some (.unsupportedScheme pp.scheme), none, none, []⟩
      else if pp.scheme = "solana-spl" then
        if SOLANA_NETWORKS.contains req.network = false then
          ⟨false, some (.unsupportedNetwork req.network), none, none, []⟩
        else
          let tokenDecimals := getTokenDecimals mintInfo req.asset req.network
          let result := SolanaSPLScheme.settlePayment ata now chain pp req tokenDecimals
          ⟨result.success, result.error, result.txHash, some req.network, result.sent⟩
      else ⟨false, some (.unsupportedScheme pp.scheme), none, none, []⟩

end FacilitatorService

/-! ## Concrete test fixtures (used by witnesses and counterexamples) -/
/-- A valid 32-byte base58 address: 32 ones decode to 32 zero bytes. -/
def onesAddr : String := "11111111111111111111111111111111"

def sig87 : String := String.mk (List.replicate 87 'A')

def sig89 : String := String.mk (List.replicate 89 'A')

/-- A SOL requirement: 0.01 SOL to `onesAddr` on devnet. -/
def testReq : SolanaPaymentRequirement :=
  { scheme := "solana-transfer", network := "solana-devnet",
    maxAmountRequired := ⟨[0], [0, 1]⟩, resource := "/premium-data",
    description := "Premium data access", mimeType := "application/json",
    payTo := onesAddr, maxTimeoutSeconds := 60, asset := "SOL" }

/-- A matching transfer payload: 10^7 lamports, timestamp 0. -/
def testPayload : PaymentPayload SolanaTransferPayload :=
  { x402Version := 1, scheme := "solana-transfer", network := "solana-devnet",
    payload := { fromAddr := onesAddr, signature := sig87, amount := 10000000, timestamp := 0 } }

/-- An underpaying variant of `testPayload` (one lamport short). -/
def underPayload : PaymentPayload SolanaTransferPayload :=
  { testPayload with payload := { testPayload.payload with amount := 9999999 } }

/-- A deterministic stand-in for the associated-token-address derivation
(the derivation itself is an external pure function of the SPL token
library; any fixed function exercises the engine). -/
def ataFix (mint owner : String) : String := mint ++ "/" ++ owner

/-- A USDC requirement: 1.00 USDC-devnet to `onesAddr`. -/
def testReqSPL : SolanaPaymentRequirement :=
  { scheme := "solana-spl", network := "solana-devnet",
    maxAmountRequired := ⟨[1], [0, 0]⟩, resource := "/premium-data",
    description := "Premium data access", mimeType := "application/json",
    payTo := onesAddr, maxTimeoutSeconds := 60, asset := USDC_MINT_DEVNET }

/-- A matching SPL payload: 10^6 atomic units at 6 decimals. -/
def testPayloadSPL : PaymentPayload SolanaSPLPayload :=
  { x402Version := 1, scheme := "solana-spl", network := "solana-devnet",
    payload := { fromAddr := onesAddr, signature := sig87, amount := 1000000, timestamp := 0,
                 mint := USDC_MINT_DEVNET,
                 fromTokenAccount := ataFix USDC_MINT_DEVNET onesAddr,
                 toTokenAccount := ataFix USDC_MINT_DEVNET onesAddr } }

/-- A chain view on which the idempotency probe finds the signature. -/
def chainFoundT : ChainView TransferTx :=
  { getTransaction := fun _ => .ok (some ()), getAccount := fun _ => .otherError,
    latestBlockhash := .ok "blockhash", sendRawTransaction := fun _ => .ok "txsig",
    confirmTransaction := fun _ => .ok () }

/-- The same probe-finds-it chain view for the SPL engine. -/
def chainFoundS : ChainView SplTx :=
  { getTransaction := fun _ => .ok (some ()), getAccount := fun _ => .otherError,
    latestBlockhash := .ok "blockhash", sendRawTransaction := fun _ => .ok "txsig",
    confirmTransaction := fun _ => .ok () }

/-! ## Claim C4: signature-format check -/
/-- A payload whose signature has length 89 (outside `[87, 88]`). -/
def longSigPayload : PaymentPayload SolanaTransferPayload :=
  { testPayload with payload := { testPayload.payload with signature := sig89 } }

/-! ## Claim C3: the amount comparison and float rounding -/
/-- A requirement of 1.005 SOL (exact atomic value 1005000000). -/
def req1005 : SolanaPaymentRequirement :=
  { testReq with maxAmountRequired := ⟨[1], [0, 0, 5]⟩ }

/-- A payload of 1004999999 lamports: one lamport below the exact atomic
value of 1.005 SOL. -/
def payload1005 : PaymentPayload SolanaTransferPayload :=
  { testPayload with payload := { testPayload.payload with amount := 1004999999 } }

/-! ## Claim C5: requirement validation error codes -/
/-- A requirement valid in every respect except that its network,
`solana-bogus`, is not one of the three network enum values. -/
def reqBogusNetwork : SolanaPaymentRequirement :=
  { testReq with network := "solana-bogus" }

/-! ## Wire codec (`encodePaymentPayload` / `decodePaymentPayload`)

The `X-Payment` header is `base64(utf8(JSON.stringify(payload)))` and is
decoded with `Buffer.from(encoded, 'base64').toString('utf8')` followed
by `JSON.parse`.  JavaScript strings are modelled as lists of UTF-16 code
units (naturals below 2^16); byte strings as lists of naturals below 256;
the base64 text as the list of its ASCII codes. -/
/-- UTF-16 code units of an ASCII Lean string (used for fixtures). -/
def unitsOfAscii (s : String) : List ℕ := s.data.map Char.toNat

/-- ASCII code of the base64 digit `n < 64` (standard alphabet). -/
def sextetChar (n : ℕ) : ℕ :=
  if n < 26 then 65 + n
  else if n < 52 then 97 + (n - 26)
  else if n < 62 then 48 + (n - 52)
  else if n = 62 then 43 else 47

/-- Standard padded base64 of a byte list (`Buffer.toString('base64')`),
as ASCII codes (61 is `'='`). -/
def base64Encode : List ℕ → List ℕ
  | [] => []
  | [b1] => [sextetChar (b1 / 4), sextetChar (b1 % 4 * 16), 61, 61]
  | [b1, b2] => [sextetChar (b1 / 4), sextetChar (b1 % 4 * 16 + b2 / 16), sextetChar (b2 % 16 * 4), 61]
  | b1 :: b2 :: b3 :: rest =>
    sextetChar (b1 / 4) :: sextetChar (b1 % 4 * 16 + b2 / 16) ::
      sextetChar (b2 % 16 * 4 + b3 / 64) :: sextetChar (b3 % 64) :: base64Encode rest

/-- Base64 digit value of an ASCII code, `none` for non-alphabet
characters (including `'='`). -/
def sextetOf (c : ℕ) : Option ℕ :=
  if 65 ≤ c ∧ c ≤ 90 then some (c - 65)
  else if 97 ≤ c ∧ c ≤ 122 then some (c - 97 + 26)
  else if 48 ≤ c ∧ c ≤ 57 then some (c - 48 + 52)
  else if c = 43 then some 62
  else if c = 47 then some 63
  else none

/-- Regroup base64 digit values into bytes; a trailing group of 3/2/1
digits yields 2/1/0 bytes. -/
def sextetsToBytes : List ℕ → List ℕ
  | s1 :: s2 :: s3 :: s4 :: rest =>
    (s1 * 4 + s2 / 16) :: (s2 % 16 * 16 + s3 / 4) :: (s3 % 4 * 64 + s4) :: sextetsToBytes rest
  | [s1, s2, s3] => [s1 * 4 + s2 / 16, s2 % 16 * 16 + s3 / 4]
  | [s1, s2] => [s1 * 4 + s2 / 16]
  | _ => []

/-- Node's lenient base64 decoding (`Buffer.from(s, 'base64')` never
throws): non-alphabet characters, padding included, are skipped, and the
remaining digits are regrouped. -/
def base64DecodeLenient (cs : List ℕ) : List ℕ :=
  sextetsToBytes (cs.filterMap sextetOf)

/-- UTF-8 encoding of a UTF-16 code-unit list, fuel-based step function
(the fuel only bounds recursion depth; one step consumes 1-2 units). -/
def utf8EncodeGo : ℕ → List ℕ → List ℕ
  | 0, _ => []
  | f + 1, units =>
    match units with
    | [] => []
    | u :: rest =>
      if u < 0x80 then u :: utf8EncodeGo f rest
      else if u < 0x800 then (0xC0 + u / 64) :: (0x80 + u % 64) :: utf8EncodeGo f rest
      else if u < 0xD800 ∨ 0xE000 ≤ u then
        (0xE0 + u / 4096) :: (0x80 + u / 64 % 64) :: (0x80 + u % 64) :: utf8EncodeGo f rest
      else
        match rest with
        | v :: rest2 =>
          if u < 0xDC00 ∧ 0xDC00 ≤ v ∧ v < 0xE000 then
            let c := 0x10000 + (u - 0xD800) * 1024 + (v - 0xDC00)
            (0xF0 + c / 262144) :: (0x80 + c / 4096 % 64) :: (0x80 + c / 64 % 64) ::
              (0x80 + c % 64) :: utf8EncodeGo f rest2
          else 0xEF :: 0xBF :: 0xBD :: utf8EncodeGo f rest
        | [] => [0xEF, 0xBF, 0xBD]

/-- UTF-8 encoding of a UTF-16 code-unit list (`Buffer.from(s,'utf8')`):
surrogate pairs become 4-byte sequences, lone surrogates become U+FFFD
(`EF BF BD`), as Node does. -/
def utf8EncodeUnits (us : List ℕ) : List ℕ := utf8EncodeGo (us.length + 1) us

/-- Lenient UTF-8 decoding to UTF-16 code units, fuel-based step
function (the fuel only bounds recursion depth; one step consumes 1-4
bytes). -/
def utf8DecodeGo : ℕ → List ℕ → List ℕ
  | 0, _ => []
  | f + 1, bytes =>
    match bytes with
    | [] => []
    | b :: rest =>
      if b < 0x80 then b :: utf8DecodeGo f rest
      else if 0xC0 ≤ b ∧ b < 0xE0 then
        match rest with
        | b2 :: rest2 =>
          if 0x80 ≤ b2 ∧ b2 < 0xC0 then
            ((b - 0xC0) * 64 + (b2 - 0x80)) :: utf8DecodeGo f rest2
          else 0xFFFD :: utf8DecodeGo f rest
        | [] => [0xFFFD]
      else if 0xE0 ≤ b ∧ b < 0xF0 then
        match rest with
        | b2 :: b3 :: rest2 =>
          if (0x80 ≤ b2 ∧ b2 < 0xC0) ∧ (0x80 ≤ b3 ∧ b3 < 0xC0) then
            ((b - 0xE0) * 4096 + (b2 - 0x80) * 64 + (b3 - 0x80)) :: utf8DecodeGo f rest2
          else 0xFFFD :: utf8DecodeGo f rest
        | _ => 0xFFFD :: utf8DecodeGo f rest
      else if 0xF0 ≤ b ∧ b < 0xF8 then
        match rest with
        | b2 :: b3 :: b4 :: rest2 =>
          if (0x80 ≤ b2 ∧ b2 < 0xC0) ∧ (0x80 ≤ b3 ∧ b3 < 0xC0) ∧ (0x80 ≤ b4 ∧ b4 < 0xC0) then
            let c := (b - 0xF0) * 262144 + (b2 - 0x80) * 4096 + (b3 - 0x80) * 64 + (b4 - 0x80)
            (0xD800 + (c - 0x10000) / 1024) :: (0xDC00 + (c - 0x10000) % 1024) ::
              utf8DecodeGo f rest2
          else 0xFFFD :: utf8DecodeGo f rest
        | _ => 0xFFFD :: utf8DecodeGo f rest
      else 0xFFFD :: utf8DecodeGo f rest

/-- Lenient UTF-8 decoding (`buffer.toString('utf8')` never throws):
well-formed sequences decode exactly (4-byte sequences to surrogate
pairs); a malformed byte yields one U+FFFD replacement unit. -/
def utf8DecodeUnits (bs : List ℕ) : List ℕ := utf8DecodeGo (bs.length + 1) bs

/-- A parsed JSON value, as `JSON.parse` returns it: strings are UTF-16
code-unit lists, numbers keep their literal token (the payloads' numbers
are integers, for which the token determines the value exactly). -/
inductive Json where
  | null : Json
  | bool (b : Bool) : Json
  | num (lit : List ℕ) : Json
  | str (s : List ℕ) : Json
  | arr (elems : List Json) : Json
  | obj (members : List (List ℕ × Json)) : Json

/-- ASCII code of the lowercase hex digit of `n < 16`. -/
def hexDigitChar (n : ℕ) : ℕ := if n < 10 then 48 + n else 87 + n

/-- The string-escaping of `JSON.stringify`: quote, backslash and the
named controls get two-character escapes, other controls `\u00xx`; a
well-formed surrogate pair passes through; a lone surrogate is escaped
`\uxxxx` (well-formed JSON.stringify, ES2019).  Fuel-based (one step
consumes 1-2 units). -/
def escapeGo : ℕ → List ℕ → List ℕ
  | 0, _ => []
  | f + 1, units =>
    match units with
    | [] => []
    | u :: rest =>
      if u = 0x22 then 0x5C :: 0x22 :: escapeGo f rest
      else if u = 0x5C then 0x5C :: 0x5C :: escapeGo f rest
      else if u = 0x08 then 0x5C :: 0x62 :: escapeGo f rest
      else if u = 0x09 then 0x5C :: 0x74 :: escapeGo f rest
      else if u = 0x0A then 0x5C :: 0x6E :: escapeGo f rest
      else if u = 0x0C then 0x5C :: 0x66 :: escapeGo f rest
      else if u = 0x0D then 0x5C :: 0x72 :: escapeGo f rest
      else if u < 0x20 then
        0x5C :: 0x75 :: 48 :: 48 :: hexDigitChar (u / 16) :: hexDigitChar (u % 16) :: escapeGo f rest
      else if u < 0xD800 ∨ 0xE000 ≤ u then u :: escapeGo f rest
      else
        match rest with
        | v :: rest2 =>
          if u < 0xDC00 ∧ 0xDC00 ≤ v ∧ v < 0xE000 then u :: v :: escapeGo f rest2
          else 0x5C :: 0x75 :: hexDigitChar (u / 4096) :: hexDigitChar (u / 256 % 16) ::
            hexDigitChar (u / 16 % 16) :: hexDigitChar (u % 16) :: escapeGo f rest
        | [] => [0x5C, 0x75, hexDigitChar (u / 4096), hexDigitChar (u / 256 % 16),
            hexDigitChar (u / 16 % 16), hexDigitChar (u % 16)]

def escapeUnits (us : List ℕ) : List ℕ := escapeGo (us.length + 1) us

/-- Decimal digit characters of `n`, most significant first. -/
def natLitGo : ℕ → ℕ → List ℕ → List ℕ
  | 0, _, acc => acc
  | f + 1, n, acc => if n < 10 then (48 + n) :: acc else natLitGo f (n / 10) ((48 + n % 10) :: acc)

def natLit (n : ℕ) : List ℕ := natLitGo (n + 1) n []

/-- The canonical decimal token `JSON.stringify` emits for an integer
(45 is `'-'`). -/
def intLit (z : ℤ) : List ℕ := if z < 0 then 45 :: natLit z.natAbs else natLit z.natAbs

/-- Comma-join serialized fragments (44 is `','`). -/
def joinComma : List (List ℕ) → List ℕ
  | [] => []
  | [x] => x
  | x :: xs => x ++ 44 :: joinComma xs

/-- Model of `JSON.stringify` (no spacing), fuel-based over the nesting
depth: values of depth below the fuel serialize fully.  Object members
keep insertion order. -/
def stringifyJsonF : ℕ → Json → List ℕ
  | 0, _ => []
  | _ + 1, .null => [110, 117, 108, 108]
  | _ + 1, .bool true => [116, 114, 117, 101]
  | _ + 1, .bool false => [102, 97, 108, 115, 101]
  | _ + 1, .num lit => lit
  | _ + 1, .str s => 0x22 :: escapeUnits s ++ [0x22]
  | f + 1, .arr es => 0x5B :: joinComma (es.map (stringifyJsonF f)) ++ [0x5D]
  | f + 1, .obj ms =>
    0x7B :: joinComma (ms.map fun m =>
      0x22 :: escapeUnits m.1 ++ [0x22, 0x3A] ++ stringifyJsonF f m.2) ++ [0x7D]

/-- Skip JSON whitespace (space, tab, LF, CR). -/
def skipWs : List ℕ → List ℕ
  | [] => []
  | u :: rest => if u = 0x20 ∨ u = 0x09 ∨ u = 0x0A ∨ u = 0x0D then skipWs rest else u :: rest

/-- Value of an ASCII hex digit. -/
def hexVal (c : ℕ) : Option ℕ :=
  if 48 ≤ c ∧ c ≤ 57 then some (c - 48)
  else if 97 ≤ c ∧ c ≤ 102 then some (c - 87)
  else if 65 ≤ c ∧ c ≤ 70 then some (c - 55)
  else none

/-- Read the four hex digits of a `\\u` escape. -/
def readHex4 : List ℕ → Option (ℕ × List ℕ)
  | h1 :: h2 :: h3 :: h4 :: rest =>
    match hexVal h1, hexVal h2, hexVal h3, hexVal h4 with
    | some a, some b, some c, some d => some (a * 4096 + b * 256 + c * 16 + d, rest)
    | _, _, _, _ => none
  | _ => none

/-- Read one escape after a backslash: the denoted UTF-16 unit and the
remaining input (`\\uXXXX` yields the unit `XXXX`, surrogate halves
included, as in JS). -/
def readEscape : List ℕ → Option (ℕ × List ℕ)
  | [] => none
  | e :: rest =>
    if e = 0x22 ∨ e = 0x5C ∨ e = 0x2F then some (e, rest)
    else if e = 0x62 then some (0x08, rest)
    else if e = 0x74 then some (0x09, rest)
    else if e = 0x6E then some (0x0A, rest)
    else if e = 0x66 then some (0x0C, rest)
    else if e = 0x72 then some (0x0D, rest)
    else if e = 0x75 then readHex4 rest
    else none

/-- Prepend a unit to the first component of a string-parse result. -/
def consFst (u : ℕ) : Option (List ℕ × List ℕ) → Option (List ℕ × List ℕ)
  | some (s, r) => some (u :: s, r)
  | none => none

/-- Parse a JSON string body after the opening quote (fuel-based):
returns the value units and the input after the closing quote.  Raw
control characters are rejected, as `JSON.parse` does. -/
def parseStrBody : ℕ → List ℕ → Option (List ℕ × List ℕ)
  | 0, _ => none
  | _ + 1, [] => none
  | f + 1, u :: rest =>
    if u = 0x22 then some ([], rest)
    else if u = 0x5C then
      match readEscape rest with
      | some (c, rest2) => consFst c (parseStrBody f rest2)
      | none => none
    else if u < 0x20 then none
    else consFst u (parseStrBody f rest)

/-- Characters that can occur in a JSON number token. -/
def isNumChar (u : ℕ) : Bool :=
  decide ((48 ≤ u ∧ u ≤ 57) ∨ u = 43 ∨ u = 45 ∨ u = 46 ∨ u = 101 ∨ u = 69)

/-- Maximal munch of number-token characters. -/
def scanNum : List ℕ → List ℕ × List ℕ
  | [] => ([], [])
  | u :: rest =>
    if isNumChar u then
      let (tok, r) := scanNum rest
      (u :: tok, r)
    else ([], u :: rest)

def isDigitChar (u : ℕ) : Bool := decide (48 ≤ u ∧ u ≤ 57)

/-- Drop leading decimal digits. -/
def dropDigits : List ℕ → List ℕ
  | [] => []
  | u :: rest => if isDigitChar u then dropDigits rest else u :: rest

/-- One or more digits and nothing else. -/
def allDigits1 (l : List ℕ) : Bool := (decide (l ≠ [])) && decide (dropDigits l = [])

/-- Validate `[+-]? digits+` (the tail of an exponent). -/
def expTail : List ℕ → Bool
  | [] => false
  | s :: r => if s = 43 ∨ s = 45 then allDigits1 r else allDigits1 (s :: r)

/-- Validate an optional exponent part `([eE] [+-]? digits+)?`. -/
def expPartValid : List ℕ → Bool
  | [] => true
  | e :: r => (e = 101 || e = 69) && expTail r

/-- Validate `digits+ exp?` (the tail of a fraction). -/
def fracTail (l : List ℕ) : Bool :=
  (match l with
    | d :: _ => isDigitChar d
    | [] => false) && expPartValid (dropDigits l)

/-- Validate an optional fraction then exponent: `('.' digits+)? exp?`. -/
def fracExpValid : List ℕ → Bool
  | [] => true
  | u :: r => if u = 46 then fracTail r else expPartValid (u :: r)

/-- Validate `0 | [1-9][0-9]*` then fraction/exponent. -/
def numBodyValid : List ℕ → Bool
  | [] => false
  | u :: r =>
    if u = 48 then fracExpValid r
    else if isDigitChar u then fracExpValid (dropDigits r)
    else false

/-- Whether a token satisfies the JSON number grammar
(`-? (0 | [1-9][0-9]*) frac? exp?`). -/
def numTokenValid : List ℕ → Bool
  | [] => false
  | u :: r => if u = 45 then numBodyValid r else numBodyValid (u :: r)

/-- Parser mode: a value, the element loop of an array (after `[` and
whitespace, when not immediately `]`), or the member loop of an object
(after `{` and whitespace, when not immediately `}`). -/
inductive PMode where
  | val | elems | members

/-- Fuel-based model of `JSON.parse`'s recursive-descent core.  The
element and member loops return their collection wrapped in `.arr` /
`.obj`. -/
def parseStep : ℕ → PMode → List ℕ → Option (Json × List ℕ)
  | 0, _, _ => none
  | f + 1, .val, s =>
    match skipWs s with
    | [] => none
    | u :: rest =>
      if u = 0x7B then
        match skipWs rest with
        | 0x7D :: rest2 => some (.obj [], rest2)
        | s2 => parseStep f .members s2
      else if u = 0x5B then
        match skipWs rest with
        | 0x5D :: rest2 => some (.arr [], rest2)
        | s2 => parseStep f .elems s2
      else if u = 0x22 then
        match parseStrBody (rest.length + 1) rest with
        | some (sv, r) => some (.str sv, r)
        | none => none
      else if u = 116 then
        match rest with
        | 114 :: 117 :: 101 :: r => some (.bool true, r)
        | _ => none
      else if u = 102 then
        match rest with
        | 97 :: 108 :: 115 :: 101 :: r => some (.bool false, r)
        | _ => none
      else if u = 110 then
        match rest with
        | 117 :: 108 :: 108 :: r => some (.null, r)
        | _ => none
      else if isNumChar u then
        let (lit, r) := scanNum (u :: rest)
        if numTokenValid lit then some (.num lit, r) else none
      else none
  | f + 1, .elems, s =>
    match parseStep f .val s with
    | some (j, r) =>
      match skipWs r with
      | 44 :: r2 =>
        match parseStep f .elems r2 with
        | some (.arr es, r3) => some (.arr (j :: es), r3)
        | _ => none
      | 0x5D :: r2 => some (.arr [j], r2)
      | _ => none
    | none => none
  | f + 1, .members, s =>
    match skipWs s with
    | 0x22 :: rest =>
      match parseStrBody (rest.length + 1) rest with
      | some (k, r) =>
        match skipWs r with
        | 0x3A :: r2 =>
          match parseStep f .val r2 with
          | some (j, r3) =>
            match skipWs r3 with
            | 44 :: r4 =>
              match parseStep f .members r4 with
              | some (.obj ms, r5) => some (.obj ((k, j) :: ms), r5)
              | _ => none
            | 0x7D :: r4 => some (.obj [(k, j)], r4)
            | _ => none
          | none => none
        | _ => none
      | none => none
    | _ => none

/-- Model of `JSON.parse`: parse one value and require only whitespace to
follow. -/
def parseJson (text : List ℕ) : Option Json :=
  match parseStep (text.length + 1) .val text with
  | some (j, rest) => if skipWs rest = [] then some j else none
  | none => none

/-- The wire form of a `SolanaTransferPayload` / `SolanaSPLPayload`: the
string fields as UTF-16 code-unit lists (`amount` is a decimal string on
the wire), the optional SPL fields appended in the source's insertion
order. -/
structure WireSchemePayload where
  fromAddr : List ℕ
  signature : List ℕ
  amount : List ℕ
  timestamp : ℤ
  nonce : Option (List ℕ) := none
  mint : Option (List ℕ) := none
  fromTokenAccount : Option (List ℕ) := none
  toTokenAccount : Option (List ℕ) := none

/-- The wire form of a `PaymentPayload` envelope. -/
structure WirePaymentPayload where
  x402Version : ℤ
  scheme : List ℕ
  network : List ℕ
  payload : WireSchemePayload

/-- An optional member of a serialized object. -/
def optMember (key : List ℕ) : Option (List ℕ) → List (List ℕ × Json)
  | some v => [(key, .str v)]
  | none => []

/-- The JSON value of the scheme payload, member order as created by
`createPaymentPayload` (absent optional fields are omitted, as
`JSON.stringify` omits `undefined`). -/
def jsonOfSchemePayload (p : WireSchemePayload) : Json :=
  .obj ([(unitsOfAscii "from", .str p.fromAddr),
    (unitsOfAscii "signature", .str p.signature),
    (unitsOfAscii "amount", .str p.amount),
    (unitsOfAscii "timestamp", .num (intLit p.timestamp))] ++
    optMember (unitsOfAscii "nonce") p.nonce ++
    optMember (unitsOfAscii "mint") p.mint ++
    optMember (unitsOfAscii "fromTokenAccount") p.fromTokenAccount ++
    optMember (unitsOfAscii "toTokenAccount") p.toTokenAccount)

/-- The JSON value of the whole payload envelope. -/
def jsonOfPayload (p : WirePaymentPayload) : Json :=
  .obj [(unitsOfAscii "x402Version", .num (intLit p.x402Version)),
    (unitsOfAscii "scheme", .str p.scheme),
    (unitsOfAscii "network", .str p.network),
    (unitsOfAscii "payload", jsonOfSchemePayload p.payload)]

/-- Model of `encodePaymentPayload` (`packages/core/src/utils.ts`):
`Buffer.from(JSON.stringify(payload)).toString('base64')`.  The payload
envelope nests two objects deep, so stringify fuel 5 covers it. -/
def encodePaymentPayload (p : WirePaymentPayload) : List ℕ :=
  base64Encode (utf8EncodeUnits (stringifyJsonF 5 (jsonOfPayload p)))

/-- Model of `decodePaymentPayload` (`packages/core/src/utils.ts`):
base64-decode (lenient, as `Buffer.from(_, 'base64')` is), UTF-8 decode
(lenient, as `toString('utf8')` is), `JSON.parse`; the only throw is the
parse, rethrown as `X402Error(..., 'INVALID_PAYLOAD')`.  The parsed value
is returned as-is, with no shape validation. -/
def decodePaymentPayload (units : List ℕ) : Except ThrownErr Json :=
  match parseJson (utf8DecodeUnits (base64DecodeLenient units)) with
  | some j => .ok j
  | none => .error .invalidPayload

def wf16 : List ℕ → Bool
  | [] => true
  | u :: rest =>
    if u < 0xD800 ∨ (0xE000 ≤ u ∧ u < 0x10000) then wf16 rest
    else if 0xD800 ≤ u ∧ u < 0xDC00 then
      match rest with
      | v :: rest2 => (decide (0xDC00 ≤ v ∧ v < 0xE000)) && wf16 rest2
      | [] => false
    else false

/-- All units of the list are below 2^16 (a JS string). -/
def units16 (us : List ℕ) : Bool := us.all fun u => u < 0x10000

/-- Whether the input does not continue with a number character. -/
def notNumHead : List ℕ → Prop
  | [] => True
  | c :: _ => isNumChar c = false

/-- `txt` parses as the JSON value `v` at any value fuel of at least
`c + 1`, leaving the (non-number-headed) remainder untouched. -/
def SerVal (c : ℕ) (v : Json) (txt : List ℕ) : Prop :=
  ∀ (g : ℕ) (rest : List ℕ), c ≤ g → notNumHead rest →
    parseStep (g + 1) .val (txt ++ rest) = some (v, rest)

/-- The serialized member fragments of an object, in order (key quoted
and escaped, colon, value at stringify fuel `d`). -/
def serMembers (d : ℕ) : List (List ℕ × Json) → List (List ℕ)
  | [] => []
  | m :: t => (0x22 :: escapeUnits m.1 ++ [0x22, 0x3A] ++ stringifyJsonF d m.2) :: serMembers d t

/-- The member list of the serialized scheme payload (the list inside
`jsonOfSchemePayload`). -/
def innerMembers (q : WireSchemePayload) : List (List ℕ × Json) :=
  [(unitsOfAscii "from", .str q.fromAddr),
    (unitsOfAscii "signature", .str q.signature),
    (unitsOfAscii "amount", .str q.amount),
    (unitsOfAscii "timestamp", .num (intLit q.timestamp))] ++
    optMember (unitsOfAscii "nonce") q.nonce ++
    optMember (unitsOfAscii "mint") q.mint ++
    optMember (unitsOfAscii "fromTokenAccount") q.fromTokenAccount ++
    optMember (unitsOfAscii "toTokenAccount") q.toTokenAccount

/-- The member list of the serialized payload envelope. -/
def outerMembers (p : WirePaymentPayload) : List (List ℕ × Json) :=
  [(unitsOfAscii "x402Version", .num (intLit p.x402Version)),
    (unitsOfAscii "scheme", .str p.scheme),
    (unitsOfAscii "network", .str p.network),
    (unitsOfAscii "payload", jsonOfSchemePayload p.payload)]

/-- An optional string field, if present, has UTF-16 units. -/
def opt16 : Option (List ℕ) → Bool
  | none => true
  | some s => units16 s

/-- Syntactic well-formedness of a wire scheme payload: every string
field is a list of UTF-16 code units (as every JS string is). -/
def wfSchemePayload (q : WireSchemePayload) : Bool :=
  units16 q.fromAddr && units16 q.signature && units16 q.amount &&
    opt16 q.nonce && opt16 q.mint && opt16 q.fromTokenAccount && opt16 q.toTokenAccount

/-- Syntactic well-formedness of a wire payment payload. -/
def wfPayload (p : WirePaymentPayload) : Bool :=
  units16 p.scheme && units16 p.network && wfSchemePayload p.payload

/-! ## Claim C1: idempotency probe short-circuits settlement -/
/-- Claim C1.  For every payment payload that passes verification, if the
idempotency probe (`getTransaction` on `payload.signature`) finds the
transaction on chain, `settlePayment` returns `success = true` with
`txHash` equal to `payload.signature` and performs no submission (the
`sendRawTransaction` trace is empty) — for both scheme engines. -/
theorem settle_idempotent_probe_short_circuits :
    (∀ (now : ℤ) (chain : ChainView TransferTx) (pp : PaymentPayload SolanaTransferPayload)
      (req : SolanaPaymentRequirement),
      (SolanaTransferScheme.verifyPayment now pp req).isValid = true →
      chain.getTransaction pp.payload.signature = .ok (some ()) →
      SolanaTransferScheme.settlePayment now chain pp req =
        ⟨true, some pp.payload.signature, none, []⟩) ∧
    (∀ (ata : String → String → String) (now : ℤ) (chain : ChainView SplTx)
      (pp : PaymentPayload SolanaSPLPayload) (req : SolanaPaymentRequirement)
      (tokenDecimals : ℕ),
      (SolanaSPLScheme.verifyPayment ata now pp req tokenDecimals).isValid = true →
      chain.getTransaction pp.payload.signature = .ok (some ()) →
      SolanaSPLScheme.settlePayment ata now chain pp req tokenDecimals =
        ⟨true, some pp.payload.signature, none, []⟩) := by
  constructor
  · intro now chain pp req hv hg
    simp [SolanaTransferScheme.settlePayment, hv, hg]
  · intro ata now chain pp req tokenDecimals hv hg
    simp [SolanaSPLScheme.settlePayment, hv, hg]

/-- Witness for C1: on the concrete fixtures, verification passes, the
probe finds the signature, and settlement is the idempotent success with
an empty submission trace, for both engines. -/
theorem settle_idempotent_probe_witness :
    ((SolanaTransferScheme.verifyPayment 0 testPayload testReq).isValid = true ∧
      SolanaTransferScheme.settlePayment 0 chainFoundT testPayload testReq =
        ⟨true, some testPayload.payload.signature, none, []⟩) ∧
    ((SolanaSPLScheme.verifyPayment ataFix 0 testPayloadSPL testReqSPL 6).isValid = true ∧
      SolanaSPLScheme.settlePayment ataFix 0 chainFoundS testPayloadSPL testReqSPL 6 =
        ⟨true, some testPayloadSPL.payload.signature, none, []⟩) :=
  ⟨⟨by decide,
    settle_idempotent_probe_short_circuits.1 0 chainFoundT testPayload testReq (by decide) rfl⟩,
   ⟨by decide,
    settle_idempotent_probe_short_circuits.2 ataFix 0 chainFoundS testPayloadSPL testReqSPL 6
      (by decide) rfl⟩⟩

/-! ## Claim C2: verification failure makes settlement a no-op -/
/-- Claim C2.  Whenever verification fails with some `invalidReason`,
settlement returns `success = false` with `error` equal to that same
reason, no `txHash`, and an empty submission trace — at the scheme level
(both engines) and at the facilitator level (both routes, where the
response also carries `txHash = null` and `networkId = null`
explicitly). -/
theorem settle_propagates_verify_failure :
    (∀ (now : ℤ) (chain : ChainView TransferTx) (pp : PaymentPayload SolanaTransferPayload)
      (req : SolanaPaymentRequirement),
      (SolanaTransferScheme.verifyPayment now pp req).isValid = false →
      SolanaTransferScheme.settlePayment now chain pp req =
        ⟨false, none, (SolanaTransferScheme.verifyPayment now pp req).invalidReason, []⟩) ∧
    (∀ (ata : String → String → String) (now : ℤ) (chain : ChainView SplTx)
      (pp : PaymentPayload SolanaSPLPayload) (req : SolanaPaymentRequirement)
      (tokenDecimals : ℕ),
      (SolanaSPLScheme.verifyPayment ata now pp req tokenDecimals).isValid = false →
      SolanaSPLScheme.settlePayment ata now chain pp req tokenDecimals =
        ⟨false, none, (SolanaSPLScheme.verifyPayment ata now pp req tokenDecimals).invalidReason, []⟩) ∧
    (∀ (now : ℤ) (chain : ChainView TransferTx) (x402Version : ℤ)
      (header : Except ThrownErr (PaymentPayload SolanaTransferPayload))
      (req : SolanaPaymentRequirement),
      (FacilitatorService.verifyPayment now x402Version header req).isValid = false →
      FacilitatorService.settlePayment now chain x402Version header req =
        ⟨false, (FacilitatorService.verifyPayment now x402Version header req).invalidReason,
          none, none, []⟩) ∧
    (∀ (mintInfo : String → Option ℕ) (ata : String → String → String) (now : ℤ)
      (chain : ChainView SplTx) (x402Version : ℤ)
      (header : Except ThrownErr (PaymentPayload SolanaSPLPayload))
      (req : SolanaPaymentRequirement),
      (FacilitatorService.verifyPaymentSPL mintInfo ata now x402Version header req).isValid = false →
      FacilitatorService.settlePaymentSPL mintInfo ata now chain x402Version header req =
        ⟨false, (FacilitatorService.verifyPaymentSPL mintInfo ata now x402Version header req).invalidReason,
          none, none, []⟩) := by
  refine ⟨?_, ?_, ?_, ?_⟩
  · intro now chain pp req hv
    simp [SolanaTransferScheme.settlePayment, hv]
  · intro ata now chain pp req tokenDecimals hv
    simp [SolanaSPLScheme.settlePayment, hv]
  · intro now chain x402Version header req hv
    simp [FacilitatorService.settlePayment, hv]
  · intro mintInfo ata now chain x402Version header req hv
    simp [FacilitatorService.settlePaymentSPL, hv]

/-- Witness for C2: the underpaying payload fails verification with the
insufficient-amount reason, and settlement propagates exactly that reason
with no transaction hash and no submission, at both levels. -/
theorem settle_propagates_verify_failure_witness :
    ((SolanaTransferScheme.verifyPayment 0 underPayload testReq).isValid = false ∧
      SolanaTransferScheme.settlePayment 0 chainFoundT underPayload testReq =
        ⟨false, none, some .insufficientAmount, []⟩) ∧
    ((FacilitatorService.verifyPayment 0 1 (.ok underPayload) testReq).isValid = false ∧
      FacilitatorService.settlePayment 0 chainFoundT 1 (.ok underPayload) testReq =
        ⟨false, some .insufficientAmount, none, none, []⟩) :=
  ⟨⟨by decide, by
      have h := settle_propagates_verify_failure.1 0 chainFoundT underPayload testReq (by decide)
      rw [h]; decide⟩,
   ⟨by decide, by
      have h := (settle_propagates_verify_failure.2.2.1) 0 chainFoundT 1 (.ok underPayload) testReq
        (by decide)
      rw [h]; decide⟩⟩

/-- Counterexample to claim C4.  The claim says transfer verification
rejects with the invalid-signature-format reason exactly when the
signature length lies outside `[87, 88]`.  A payload with an 89-character
signature (which the unused `isValidSignature` helper would reject)
passes the whole verification: the engine only tests the lower bound. -/
theorem signature_length_upper_bound_not_enforced :
    longSigPayload.payload.signature.length = 89 ∧
    isValidSignature longSigPayload.payload.signature = false ∧
    SolanaTransferScheme.verifyPayment 0 longSigPayload testReq = ⟨true, none⟩ := by
  decide

/-- Claim C4 as amended: transfer verification produces the
invalid-signature-format reason exactly when the scheme tag matches and
the signature is shorter than 87 characters; no upper bound is
enforced. -/
theorem signature_format_check_characterization :
    ∀ (now : ℤ) (pp : PaymentPayload SolanaTransferPayload) (req : SolanaPaymentRequirement),
      (SolanaTransferScheme.verifyPayment now pp req).invalidReason = some .invalidSignatureFormat ↔
        (pp.scheme = "solana-transfer" ∧ pp.payload.signature.length < 87) := by
  intro now pp req
  simp only [SolanaTransferScheme.verifyPayment]
  split_ifs <;> try simp_all
  all_goals split <;> (try split_ifs) <;> simp_all

/-! ## Claim C6: the 5-minute freshness window and its boundary -/
/-- Claim C6.  For a payload that passes all preceding checks, both
engines fail with the payload-expired reason exactly when
`now - payload.timestamp` strictly exceeds 300000 ms, and succeed exactly
when `now - payload.timestamp ≤ 300000` (the boundary value passes). -/
theorem freshness_window_boundary :
    (∀ (now : ℤ) (pp : PaymentPayload SolanaTransferPayload) (req : SolanaPaymentRequirement)
      (R : ℤ),
      pp.scheme = "solana-transfer" →
      ¬(pp.payload.signature.length < 87) →
      isValidSolanaAddress pp.payload.fromAddr = true →
      isValidSolanaAddress req.payTo = true →
      toAtomicUnits (parseFloatD req.maxAmountRequired) 9 = some R →
      ¬(pp.payload.amount < R) →
      ((SolanaTransferScheme.verifyPayment now pp req = ⟨false, some .payloadExpired⟩ ↔
          300000 < now - pp.payload.timestamp) ∧
        (SolanaTransferScheme.verifyPayment now pp req = ⟨true, none⟩ ↔
          now - pp.payload.timestamp ≤ 300000))) ∧
    (∀ (ata : String → String → String) (now : ℤ) (pp : PaymentPayload SolanaSPLPayload)
      (req : SolanaPaymentRequirement) (tokenDecimals : ℕ) (R : ℤ),
      pp.scheme = "solana-spl" →
      ¬(pp.payload.signature.length < 87) →
      pp.payload.mint = req.asset →
      isValidSolanaAddress pp.payload.fromAddr = true →
      isValidSolanaAddress req.payTo = true →
      isValidSolanaAddress pp.payload.mint = true →
      pp.payload.fromTokenAccount = ata pp.payload.mint pp.payload.fromAddr →
      pp.payload.toTokenAccount = ata pp.payload.mint req.payTo →
      toAtomicUnits (parseFloatD req.maxAmountRequired) tokenDecimals = some R →
      ¬(pp.payload.amount < R) →
      ((SolanaSPLScheme.verifyPayment ata now pp req tokenDecimals =
          ⟨false, some .payloadExpired⟩ ↔ 300000 < now - pp.payload.timestamp) ∧
        (SolanaSPLScheme.verifyPayment ata now pp req tokenDecimals = ⟨true, none⟩ ↔
          now - pp.payload.timestamp ≤ 300000))) := by
  constructor
  · intro now pp req R h1 h2 h3 h4 h5 h6
    simp only [SolanaTransferScheme.verifyPayment, h1, h2, h3, h4, h5, h6]
    refine ⟨?_, ?_⟩ <;> (split_ifs with h <;> simp_all) <;> omega
  · intro ata now pp req tokenDecimals R h1 h2 h3 h4 h5 h6 h7 h8 h9 h10
    simp only [SolanaSPLScheme.verifyPayment, h1, h2, h3, h4, h5, h6, h7, h8, h9, h10]
    refine ⟨?_, ?_⟩ <;> (split_ifs with h <;> simp_all) <;> omega

/-- Witness for C6: on the concrete fixtures (timestamp 0), verification
at `now = 300000` succeeds (the boundary passes) and at `now = 300001`
fails with the payload-expired reason. -/
theorem freshness_window_boundary_witness :
    SolanaTransferScheme.verifyPayment 300000 testPayload testReq = ⟨true, none⟩ ∧
    SolanaTransferScheme.verifyPayment 300001 testPayload testReq =
      ⟨false, some .payloadExpired⟩ :=
  ⟨(freshness_window_boundary.1 300000 testPayload testReq 10000000 (by decide) (by decide)
      (by decide) (by decide) (by decide) (by decide)).2.mpr (by decide),
   (freshness_window_boundary.1 300001 testPayload testReq 10000000 (by decide) (by decide)
      (by decide) (by decide) (by decide) (by decide)).1.mpr (by decide)⟩

/-! ## Claim C7: purity and determinism of verification -/
/-- Counterexample to claim C7.  The claim says two invocations of
`verifyPayment` with identical inputs yield identical results; but the
source also reads `Date.now()`, which is not among those inputs: the same
payload and requirement verify as valid at clock reading 300000 and as
expired at clock reading 300001. -/
theorem verify_depends_on_clock :
    SolanaTransferScheme.verifyPayment 300000 testPayload testReq = ⟨true, none⟩ ∧
    SolanaTransferScheme.verifyPayment 300001 testPayload testReq =
      ⟨false, some .payloadExpired⟩ ∧
    ⟨true, (none : Option Reason)⟩ ≠ (⟨false, some .payloadExpired⟩ : VerifyResult) := by
  decide

/-- Claim C7 as amended: verification is a pure function of the payload,
the requirement, (for SPL) the decimals and the ATA derivation, and the
clock reading — and its clock dependence factors entirely through the
freshness predicate `300000 < now - payload.timestamp`: two invocations
whose clock readings agree on that predicate yield identical results.
In the embedding neither engine's `verifyPayment` takes the chain view at
all, so no invocation can mutate the chain. -/
theorem verify_deterministic_modulo_clock :
    (∀ (pp : PaymentPayload SolanaTransferPayload) (req : SolanaPaymentRequirement)
      (n1 n2 : ℤ),
      ((300000 < n1 - pp.payload.timestamp) ↔ (300000 < n2 - pp.payload.timestamp)) →
      SolanaTransferScheme.verifyPayment n1 pp req =
        SolanaTransferScheme.verifyPayment n2 pp req) ∧
    (∀ (ata : String → String → String) (pp : PaymentPayload SolanaSPLPayload)
      (req : SolanaPaymentRequirement) (tokenDecimals : ℕ) (n1 n2 : ℤ),
      ((300000 < n1 - pp.payload.timestamp) ↔ (300000 < n2 - pp.payload.timestamp)) →
      SolanaSPLScheme.verifyPayment ata n1 pp req tokenDecimals =
        SolanaSPLScheme.verifyPayment ata n2 pp req tokenDecimals) := by
  constructor
  · intro pp req n1 n2 h
    simp only [SolanaTransferScheme.verifyPayment, propext h]
  · intro ata pp req tokenDecimals n1 n2 h
    simp only [SolanaSPLScheme.verifyPayment, propext h]

/-- Witness for C7's amended theorem: two distinct fresh clock readings
give the same (valid) verification result on the concrete fixtures. -/
theorem verify_deterministic_modulo_clock_witness :
    ((300000 < (100 : ℤ) - testPayload.payload.timestamp) ↔
      (300000 < (200 : ℤ) - testPayload.payload.timestamp)) ∧
    SolanaTransferScheme.verifyPayment 100 testPayload testReq =
      SolanaTransferScheme.verifyPayment 200 testPayload testReq :=
  ⟨by decide, verify_deterministic_modulo_clock.1 testPayload testReq 100 200 (by decide)⟩

/-! ## Claim C9: the `/supported` Cartesian product -/
/-- Counterexample to claim C9.  The claim says `kinds` is the Cartesian
product of the schemes with the three networks including
`solana-testnet`; but `SOLANA_NETWORKS` only lists mainnet and devnet, so
the pair (solana-transfer, solana-testnet) is absent. -/
theorem supported_schemes_missing_testnet :
    (⟨"solana-transfer", "solana-testnet"⟩ : FacilitatorService.SupportedScheme) ∉
      FacilitatorService.getSupportedSchemes := by
  decide

/-- Claim C9 as amended: `getSupportedSchemes` returns exactly the
Cartesian product of the scheme enum with the two networks of
`SOLANA_NETWORKS` (mainnet and devnet; testnet is not in the constant):
the concrete four-element list, whose members are exactly the product. -/
theorem supported_schemes_cartesian_product :
    FacilitatorService.getSupportedSchemes =
      [⟨"solana-transfer", "solana-mainnet"⟩, ⟨"solana-spl", "solana-mainnet"⟩,
        ⟨"solana-transfer", "solana-devnet"⟩, ⟨"solana-spl", "solana-devnet"⟩] ∧
    ∀ (s n : String),
      (⟨s, n⟩ : FacilitatorService.SupportedScheme) ∈ FacilitatorService.getSupportedSchemes ↔
        (s ∈ SOLANA_SCHEMES ∧ n ∈ SOLANA_NETWORKS) := by
  refine ⟨by decide, ?_⟩
  intro s n
  simp [FacilitatorService.getSupportedSchemes, SOLANA_SCHEMES, SOLANA_NETWORKS,
    FacilitatorService.SupportedScheme.mk.injEq]
  tauto

/-- Counterexample to claim C3.  The claim says the amount check passes
exactly when `BigInt(payload.amount)` is at least the exact atomic value
of `maxAmountRequired` at 9 decimals, and fails at that value minus one.
For `maxAmountRequired = "1.005"` the exact atomic value is 1005000000,
but `toAtomicUnits(parseFloat("1.005"), 9)` rounds through binary64 to
1004999999, so the payload paying exactly one lamport less than the
exact value passes the whole verification. -/
theorem amount_check_not_exact_at_1005 :
    exactAtomic (⟨[1], [0, 0, 5]⟩ : DecimalString) 9 = some 1005000000 ∧
    payload1005.payload.amount = 1005000000 - 1 ∧
    toAtomicUnits (parseFloatD (⟨[1], [0, 0, 5]⟩ : DecimalString)) 9 = some 1004999999 ∧
    SolanaTransferScheme.verifyPayment 0 payload1005 req1005 = ⟨true, none⟩ := by
  decide

/-- Claim C3 as amended: the amount check compares against
`toAtomicUnits(parseFloat(maxAmountRequired), 9)` — the atomic value
computed through binary64 rounding, which can differ from the exact
decimal value (as at "1.005") — and it passes exactly when
`BigInt(payload.amount)` is at least that computed value: whenever the
preceding checks pass, the insufficient-amount reason appears exactly on
`payload.amount < R` where `R` is the computed required amount. -/
theorem amount_check_characterization :
    ∀ (now : ℤ) (pp : PaymentPayload SolanaTransferPayload) (req : SolanaPaymentRequirement)
      (R : ℤ),
      pp.scheme = "solana-transfer" →
      ¬(pp.payload.signature.length < 87) →
      isValidSolanaAddress pp.payload.fromAddr = true →
      isValidSolanaAddress req.payTo = true →
      toAtomicUnits (parseFloatD req.maxAmountRequired) 9 = some R →
      ((SolanaTransferScheme.verifyPayment now pp req).invalidReason =
          some .insufficientAmount ↔ pp.payload.amount < R) := by
  intro now pp req R h1 h2 h3 h4 h5
  simp only [SolanaTransferScheme.verifyPayment, h1, h2, h3, h4, h5]
  split_ifs <;> simp_all

/-- Witness for C3's amended theorem: at the computed required amount
1004999999 for "1.005", a payload of 1004999998 is reported insufficient
(and indeed 1004999998 < 1004999999). -/
theorem amount_check_characterization_witness :
    toAtomicUnits (parseFloatD req1005.maxAmountRequired) 9 = some 1004999999 ∧
    ((SolanaTransferScheme.verifyPayment 0
        { payload1005 with payload := { payload1005.payload with amount := 1004999998 } }
        req1005).invalidReason = some .insufficientAmount ↔
      (1004999998 : ℤ) < 1004999999) :=
  ⟨by decide,
    amount_check_characterization 0
      { payload1005 with payload := { payload1005.payload with amount := 1004999998 } }
      req1005 1004999999 (by decide) (by decide) (by decide) (by decide) (by decide)⟩

/-- Counterexample to claim C5.  The claim says a requirement violating
exactly the network invariant (network not one of solana-mainnet /
solana-devnet / solana-testnet) fails validation with INVALID_NETWORK;
but the source only checks `network.startsWith('solana-')`, so
`solana-bogus` — which satisfies every other §3.1 invariant — validates
successfully. -/
theorem validate_accepts_bogus_solana_network :
    validatePaymentRequirement reqBogusNetwork = none ∧
    reqBogusNetwork.network ∉ ["solana-mainnet", "solana-devnet", "solana-testnet"] ∧
    (reqBogusNetwork.scheme = "solana-transfer" ∧ reqBogusNetwork.asset = "SOL") ∧
    isValidSolanaAddress reqBogusNetwork.payTo = true ∧
    parseFloatD reqBogusNetwork.maxAmountRequired ≠ .nan ∧
    jsLeZero (parseFloatD reqBogusNetwork.maxAmountRequired) = false := by
  decide

/-- Claim C5 as amended: with the network invariant weakened to the
code's actual check (the `solana-` prefix) and the amount invariant read
through `parseFloat` (a number that is not NaN and not `≤ 0`),
`validatePaymentRequirement` succeeds exactly when all invariants hold,
and each error code characterizes exactly its failure case, in the
source's check order. -/
theorem validate_requirement_characterization :
    ∀ r : SolanaPaymentRequirement,
      (validatePaymentRequirement r = none ↔
        ((r.scheme = "solana-transfer" ∨ r.scheme = "solana-spl") ∧
          strStartsWith r.network "solana-" = true ∧
          isValidSolanaAddress r.payTo = true ∧
          r.asset ≠ "" ∧
          ¬(r.scheme = "solana-spl" ∧ r.asset = "SOL") ∧
          ¬(r.scheme = "solana-transfer" ∧ r.asset ≠ "SOL") ∧
          ¬(parseFloatD r.maxAmountRequired = .nan ∨
            jsLeZero (parseFloatD r.maxAmountRequired) = true))) ∧
      (validatePaymentRequirement r = some .INVALID_SCHEME ↔
        ¬(r.scheme = "solana-transfer" ∨ r.scheme = "solana-spl")) ∧
      (validatePaymentRequirement r = some .INVALID_NETWORK ↔
        ((r.scheme = "solana-transfer" ∨ r.scheme = "solana-spl") ∧
          ¬strStartsWith r.network "solana-" = true)) ∧
      (validatePaymentRequirement r = some .INVALID_PAY_TO ↔
        ((r.scheme = "solana-transfer" ∨ r.scheme = "solana-spl") ∧
          strStartsWith r.network "solana-" = true ∧
          ¬isValidSolanaAddress r.payTo = true)) ∧
      (validatePaymentRequirement r = some .MISSING_ASSET ↔
        ((r.scheme = "solana-transfer" ∨ r.scheme = "solana-spl") ∧
          strStartsWith r.network "solana-" = true ∧
          isValidSolanaAddress r.payTo = true ∧
          r.asset = "")) ∧
      (validatePaymentRequirement r = some .INVALID_ASSET_SCHEME ↔
        ((r.scheme = "solana-transfer" ∨ r.scheme = "solana-spl") ∧
          strStartsWith r.network "solana-" = true ∧
          isValidSolanaAddress r.payTo = true ∧
          r.asset ≠ "" ∧
          ((r.scheme = "solana-spl" ∧ r.asset = "SOL") ∨
            (r.scheme = "solana-transfer" ∧ r.asset ≠ "SOL")))) ∧
      (validatePaymentRequirement r = some .INVALID_AMOUNT ↔
        ((r.scheme = "solana-transfer" ∨ r.scheme = "solana-spl") ∧
          strStartsWith r.network "solana-" = true ∧
          isValidSolanaAddress r.payTo = true ∧
          r.asset ≠ "" ∧
          ¬(r.scheme = "solana-spl" ∧ r.asset = "SOL") ∧
          ¬(r.scheme = "solana-transfer" ∧ r.asset ≠ "SOL") ∧
          (parseFloatD r.maxAmountRequired = .nan ∨
            jsLeZero (parseFloatD r.maxAmountRequired) = true))) := by
  intro r
  simp only [validatePaymentRequirement]
  split_ifs <;> refine ⟨?_, ?_, ?_, ?_, ?_, ?_, ?_⟩ <;> simp_all

/-! ## Codec correctness lemmas -/
theorem sextetOf_sextetChar (s : ℕ) (hs : s < 64) : sextetOf (sextetChar s) = some s := by
  have h : ∀ t : Fin 64, sextetOf (sextetChar t.val) = some t.val := by decide
  exact h ⟨s, hs⟩

/-- Decoding a standard base64 encoding recovers the bytes. -/
theorem base64_roundtrip :
    ∀ bs : List ℕ, (∀ b ∈ bs, b < 256) → base64DecodeLenient (base64Encode bs) = bs := by
  intro bs
  induction bs using base64Encode.induct with
  | case1 => intro _; rfl
  | case2 b1 =>
    intro hb
    have h1 : b1 < 256 := hb b1 (by simp)
    simp [base64Encode, base64DecodeLenient, List.filterMap,
      sextetOf_sextetChar _ (by omega : b1 / 4 < 64),
      sextetOf_sextetChar _ (by omega : b1 % 4 * 16 < 64)]
    simp [sextetsToBytes]
    omega
  | case3 b1 b2 =>
    intro hb
    have h1 : b1 < 256 := hb b1 (by simp)
    have h2 : b2 < 256 := hb b2 (by simp)
    simp [base64Encode, base64DecodeLenient, List.filterMap,
      sextetOf_sextetChar _ (by omega : b1 / 4 < 64),
      sextetOf_sextetChar _ (by omega : b1 % 4 * 16 + b2 / 16 < 64),
      sextetOf_sextetChar _ (by omega : b2 % 16 * 4 < 64)]
    simp [sextetsToBytes]
    omega
  | case4 b1 b2 b3 rest ih =>
    intro hb
    have h1 : b1 < 256 := hb b1 (by simp)
    have h2 : b2 < 256 := hb b2 (by simp)
    have h3 : b3 < 256 := hb b3 (by simp)
    have hrest : ∀ b ∈ rest, b < 256 := fun b hbm => hb b (by simp [hbm])
    have := ih hrest
    simp only [base64Encode, base64DecodeLenient, List.filterMap_cons,
      sextetOf_sextetChar _ (by omega : b1 / 4 < 64),
      sextetOf_sextetChar _ (by omega : b1 % 4 * 16 + b2 / 16 < 64),
      sextetOf_sextetChar _ (by omega : b2 % 16 * 4 + b3 / 64 < 64),
      sextetOf_sextetChar _ (by omega : b3 % 64 < 64)] at this ⊢
    simp only [sextetsToBytes]
    rw [this]
    simp only [List.cons.injEq, and_true]
    omega

/-- Well-formedness of a UTF-16 code-unit list: all units below 2^16
with surrogates properly paired (what `JSON.stringify` emits, since it
escapes lone surrogates). -/
theorem wf16_cons_bmp {u : ℕ} (rest : List ℕ)
    (h : u < 0xD800 ∨ (0xE000 ≤ u ∧ u < 0x10000)) : wf16 (u :: rest) = wf16 rest := by
  cases rest <;> simp [wf16, h]

theorem wf16_cons_other {u : ℕ} (rest : List ℕ)
    (h1 : ¬(u < 0xD800 ∨ (0xE000 ≤ u ∧ u < 0x10000))) (h2 : ¬(0xD800 ≤ u ∧ u < 0xDC00)) :
    wf16 (u :: rest) = false := by
  cases rest <;> simp [wf16, h1, h2]

theorem wf16_pair {u v : ℕ} (rest2 : List ℕ)
    (h1 : ¬(u < 0xD800 ∨ (0xE000 ≤ u ∧ u < 0x10000))) (h2 : 0xD800 ≤ u ∧ u < 0xDC00) :
    wf16 (u :: v :: rest2) = (decide (0xDC00 ≤ v ∧ v < 0xE000) && wf16 rest2) := by
  simp [wf16, h1, h2]

theorem wf16_lone {u : ℕ} (h1 : ¬(u < 0xD800 ∨ (0xE000 ≤ u ∧ u < 0x10000)))
    (h2 : 0xD800 ≤ u ∧ u < 0xDC00) : wf16 [u] = false := by
  simp [wf16, h1, h2]

theorem utf8_roundtrip_go :
    ∀ (f : ℕ) (us : List ℕ) (g : ℕ), us.length < f → wf16 us = true →
      (utf8EncodeGo f us).length < g →
      utf8DecodeGo g (utf8EncodeGo f us) = us := by
  intro f us
  induction f, us using utf8EncodeGo.induct with
  | case1 us => intro g h; omega
  | case2 f => intro g _ _ _; simp [utf8EncodeGo]; cases g <;> simp [utf8DecodeGo]
  | case3 f u rest h1 ih =>
    intro g hlen hwf hg
    simp only [utf8EncodeGo, if_pos h1] at hg ⊢
    obtain ⟨g', rfl⟩ : ∃ g', g = g' + 1 :=
      ⟨g - 1, by simp only [List.length_cons] at hg; omega⟩
    rw [wf16_cons_bmp rest (by omega)] at hwf
    simp only [utf8DecodeGo, if_pos h1]
    rw [ih g' (by simp only [List.length_cons] at hlen; omega) hwf
      (by simp only [List.length_cons] at hg; omega)]
  | case4 f u rest h1 h2 ih =>
    intro g hlen hwf hg
    simp only [utf8EncodeGo, if_neg h1, if_pos h2] at hg ⊢
    obtain ⟨g', rfl⟩ : ∃ g', g = g' + 1 :=
      ⟨g - 1, by simp only [List.length_cons] at hg; omega⟩
    rw [wf16_cons_bmp rest (by omega)] at hwf
    simp only [utf8DecodeGo]
    rw [if_neg (by omega : ¬(0xC0 + u / 64 < 0x80)),
      if_pos (by omega : 0xC0 ≤ 0xC0 + u / 64 ∧ 0xC0 + u / 64 < 0xE0),
      if_pos (by omega : 0x80 ≤ 0x80 + u % 64 ∧ 0x80 + u % 64 < 0xC0)]
    rw [ih g' (by simp only [List.length_cons] at hlen; omega) hwf
      (by simp only [List.length_cons] at hg; omega)]
    simp only [List.cons.injEq, and_true]
    omega
  | case5 f u rest h1 h2 h3 ih =>
    intro g hlen hwf hg
    simp only [utf8EncodeGo, if_neg h1, if_neg h2, if_pos h3] at hg ⊢
    have hu : u < 0x10000 := by
      by_contra hbig
      rw [wf16_cons_other rest (by omega) (by omega)] at hwf
      exact Bool.false_ne_true hwf
    obtain ⟨g', rfl⟩ : ∃ g', g = g' + 1 :=
      ⟨g - 1, by simp only [List.length_cons] at hg; omega⟩
    rw [wf16_cons_bmp rest (by omega)] at hwf
    simp only [utf8DecodeGo]
    rw [if_neg (by omega : ¬(0xE0 + u / 4096 < 0x80)),
      if_neg (by omega : ¬(0xC0 ≤ 0xE0 + u / 4096 ∧ 0xE0 + u / 4096 < 0xE0)),
      if_pos (by omega : 0xE0 ≤ 0xE0 + u / 4096 ∧ 0xE0 + u / 4096 < 0xF0),
      if_pos (by omega : (0x80 ≤ 0x80 + u / 64 % 64 ∧ 0x80 + u / 64 % 64 < 0xC0) ∧
        (0x80 ≤ 0x80 + u % 64 ∧ 0x80 + u % 64 < 0xC0))]
    rw [ih g' (by simp only [List.length_cons] at hlen; omega) hwf
      (by simp only [List.length_cons] at hg; omega)]
    simp only [List.cons.injEq, and_true]
    omega
  | case6 f u h1 h2 h3 v rest2 h4 ih =>
    intro g hlen hwf hg
    simp only [utf8EncodeGo, if_neg h1, if_neg h2, if_neg h3, if_pos h4] at hg ⊢
    rw [wf16_pair rest2 (by omega) (by omega)] at hwf
    rw [Bool.and_eq_true] at hwf
    obtain ⟨g', rfl⟩ : ∃ g', g = g' + 1 :=
      ⟨g - 1, by simp only [List.length_cons] at hg; omega⟩
    simp only [utf8DecodeGo]
    rw [if_neg (by omega), if_neg (by omega), if_neg (by omega),
      if_pos (by omega), if_pos (by omega)]
    rw [ih g' (by simp only [List.length_cons] at hlen; omega) hwf.2
      (by simp only [List.length_cons] at hg; omega)]
    simp only [List.cons.injEq, and_true]
    omega
  | case7 f u h1 h2 h3 v rest2 h4 ih =>
    intro g hlen hwf hg
    exfalso
    by_cases hu : 0xD800 ≤ u ∧ u < 0xDC00
    · rw [wf16_pair rest2 (by omega) hu] at hwf
      rw [Bool.and_eq_true] at hwf
      have := of_decide_eq_true hwf.1
      omega
    · rw [wf16_cons_other (v :: rest2) (by omega) hu] at hwf
      exact Bool.false_ne_true hwf
  | case8 f u h1 h2 h3 =>
    intro g hlen hwf hg
    exfalso
    by_cases hu : 0xD800 ≤ u ∧ u < 0xDC00
    · rw [wf16_lone (by omega) hu] at hwf
      exact Bool.false_ne_true hwf
    · rw [wf16_cons_other [] (by omega) hu] at hwf
      exact Bool.false_ne_true hwf

theorem utf8EncodeGo_lt_256 :
    ∀ (f : ℕ) (us : List ℕ), wf16 us = true → ∀ b ∈ utf8EncodeGo f us, b < 256 := by
  intro f us
  induction f, us using utf8EncodeGo.induct with
  | case1 us => intro _ b hb; simp [utf8EncodeGo] at hb
  | case2 f => intro _ b hb; simp [utf8EncodeGo] at hb
  | case3 f u rest h1 ih =>
    intro hwf b hb
    rw [wf16_cons_bmp rest (by omega)] at hwf
    simp only [utf8EncodeGo, if_pos h1, List.mem_cons] at hb
    rcases hb with rfl | hb
    · omega
    · exact ih hwf b hb
  | case4 f u rest h1 h2 ih =>
    intro hwf b hb
    rw [wf16_cons_bmp rest (by omega)] at hwf
    simp only [utf8EncodeGo, if_neg h1, if_pos h2, List.mem_cons] at hb
    rcases hb with rfl | rfl | hb
    · omega
    · omega
    · exact ih hwf b hb
  | case5 f u rest h1 h2 h3 ih =>
    intro hwf b hb
    have hu : u < 0x10000 := by
      by_contra hbig
      rw [wf16_cons_other rest (by omega) (by omega)] at hwf
      exact Bool.false_ne_true hwf
    rw [wf16_cons_bmp rest (by omega)] at hwf
    simp only [utf8EncodeGo, if_neg h1, if_neg h2, if_pos h3, List.mem_cons] at hb
    rcases hb with rfl | rfl | rfl | hb
    · omega
    · omega
    · omega
    · exact ih hwf b hb
  | case6 f u h1 h2 h3 v rest2 h4 ih =>
    intro hwf b hb
    rw [wf16_pair rest2 (by omega) (by omega), Bool.and_eq_true] at hwf
    simp only [utf8EncodeGo, if_neg h1, if_neg h2, if_neg h3, if_pos h4, List.mem_cons] at hb
    rcases hb with hb | hb | hb | hb | hb
    · omega
    · omega
    · omega
    · omega
    · exact ih hwf.2 b hb
  | case7 f u h1 h2 h3 v rest2 h4 ih =>
    intro hwf b hb
    exfalso
    by_cases hu : 0xD800 ≤ u ∧ u < 0xDC00
    · rw [wf16_pair rest2 (by omega) hu, Bool.and_eq_true] at hwf
      have := of_decide_eq_true hwf.1
      omega
    · rw [wf16_cons_other (v :: rest2) (by omega) hu] at hwf
      exact Bool.false_ne_true hwf
  | case8 f u h1 h2 h3 =>
    intro hwf b hb
    exfalso
    by_cases hu : 0xD800 ≤ u ∧ u < 0xDC00
    · rw [wf16_lone (by omega) hu] at hwf
      exact Bool.false_ne_true hwf
    · rw [wf16_cons_other [] (by omega) hu] at hwf
      exact Bool.false_ne_true hwf

/-- Transport roundtrip: base64 then UTF-8 recover a well-formed text. -/
theorem transport_roundtrip (text : List ℕ) (hwf : wf16 text = true) :
    utf8DecodeUnits (base64DecodeLenient (base64Encode (utf8EncodeUnits text))) = text := by
  unfold utf8DecodeUnits utf8EncodeUnits
  rw [base64_roundtrip _ (utf8EncodeGo_lt_256 _ _ hwf)]
  exact utf8_roundtrip_go _ _ _ (by omega) hwf (by omega)

theorem hexVal_hexDigitChar (n : ℕ) (h : n < 16) : hexVal (hexDigitChar n) = some n := by
  have hfin : ∀ t : Fin 16, hexVal (hexDigitChar t.val) = some t.val := by decide
  exact hfin ⟨n, h⟩

theorem hexVal_lit48 : hexVal 48 = some 0 := by decide

theorem parseStrBody_escapeGo :
    ∀ (f : ℕ) (us : List ℕ), us.length < f → units16 us = true →
      ∀ (g : ℕ) (r : List ℕ), us.length < g →
        parseStrBody g (escapeGo f us ++ 0x22 :: r) = some (us, r) := by
  intro f us
  induction f, us using escapeGo.induct with
  | case1 us => intro h; omega
  | case2 f =>
    intro _ _ g r hg
    obtain ⟨g', rfl⟩ : ∃ g', g = g' + 1 := ⟨g - 1, by omega⟩
    simp [escapeGo, parseStrBody]
  | case3 f rest ih =>
    intro hlen h16 g r hg
    simp only [units16, List.all_cons, Bool.and_eq_true, decide_eq_true_eq] at h16
    obtain ⟨g', rfl⟩ : ∃ g', g = g' + 1 :=
      ⟨g - 1, by simp only [List.length_cons] at hg; omega⟩
    simp only [List.length_cons] at hlen hg
    simp [escapeGo, parseStrBody, readEscape]
    rw [ih (by omega) (by simp [units16, h16.2]) g' r (by omega)]
    simp [consFst]
  | case4 f rest h1 ih =>
    intro hlen h16 g r hg
    simp only [units16, List.all_cons, Bool.and_eq_true, decide_eq_true_eq] at h16
    obtain ⟨g', rfl⟩ : ∃ g', g = g' + 1 :=
      ⟨g - 1, by simp only [List.length_cons] at hg; omega⟩
    simp only [List.length_cons] at hlen hg
    simp [escapeGo, parseStrBody, readEscape]
    rw [ih (by omega) (by simp [units16, h16.2]) g' r (by omega)]
    simp [consFst]
  | case5 f rest h1 h2 ih =>
    intro hlen h16 g r hg
    simp only [units16, List.all_cons, Bool.and_eq_true, decide_eq_true_eq] at h16
    obtain ⟨g', rfl⟩ : ∃ g', g = g' + 1 :=
      ⟨g - 1, by simp only [List.length_cons] at hg; omega⟩
    simp only [List.length_cons] at hlen hg
    simp [escapeGo, parseStrBody, readEscape]
    rw [ih (by omega) (by simp [units16, h16.2]) g' r (by omega)]
    simp [consFst]
  | case6 f rest h1 h2 h3 ih =>
    intro hlen h16 g r hg
    simp only [units16, List.all_cons, Bool.and_eq_true, decide_eq_true_eq] at h16
    obtain ⟨g', rfl⟩ : ∃ g', g = g' + 1 :=
      ⟨g - 1, by simp only [List.length_cons] at hg; omega⟩
    simp only [List.length_cons] at hlen hg
    simp [escapeGo, parseStrBody, readEscape]
    rw [ih (by omega) (by simp [units16, h16.2]) g' r (by omega)]
    simp [consFst]
  | case7 f rest h1 h2 h3 h4 ih =>
    intro hlen h16 g r hg
    simp only [units16, List.all_cons, Bool.and_eq_true, decide_eq_true_eq] at h16
    obtain ⟨g', rfl⟩ : ∃ g', g = g' + 1 :=
      ⟨g - 1, by simp only [List.length_cons] at hg; omega⟩
    simp only [List.length_cons] at hlen hg
    simp [escapeGo, parseStrBody, readEscape]
    rw [ih (by omega) (by simp [units16, h16.2]) g' r (by omega)]
    simp [consFst]
  | case8 f rest h1 h2 h3 h4 h5 ih =>
    intro hlen h16 g r hg
    simp only [units16, List.all_cons, Bool.and_eq_true, decide_eq_true_eq] at h16
    obtain ⟨g', rfl⟩ : ∃ g', g = g' + 1 :=
      ⟨g - 1, by simp only [List.length_cons] at hg; omega⟩
    simp only [List.length_cons] at hlen hg
    simp [escapeGo, parseStrBody, readEscape]
    rw [ih (by omega) (by simp [units16, h16.2]) g' r (by omega)]
    simp [consFst]
  | case9 f rest h1 h2 h3 h4 h5 h6 ih =>
    intro hlen h16 g r hg
    simp only [units16, List.all_cons, Bool.and_eq_true, decide_eq_true_eq] at h16
    obtain ⟨g', rfl⟩ : ∃ g', g = g' + 1 :=
      ⟨g - 1, by simp only [List.length_cons] at hg; omega⟩
    simp only [List.length_cons] at hlen hg
    simp [escapeGo, parseStrBody, readEscape]
    rw [ih (by omega) (by simp [units16, h16.2]) g' r (by omega)]
    simp [consFst]
  | case10 f u rest h1 h2 h3 h4 h5 h6 h7 h8 ih =>
    intro hlen h16 g r hg
    simp only [units16, List.all_cons, Bool.and_eq_true, decide_eq_true_eq] at h16
    obtain ⟨g', rfl⟩ : ∃ g', g = g' + 1 :=
      ⟨g - 1, by simp only [List.length_cons] at hg; omega⟩
    simp only [List.length_cons] at hlen hg
    simp only [escapeGo, if_neg h1, if_neg h2, if_neg h3, if_neg h4, if_neg h5, if_neg h6,
      if_neg h7, if_pos h8, List.cons_append]
    simp [parseStrBody, readEscape, readHex4, hexVal_hexDigitChar (u / 16) (by omega),
      hexVal_hexDigitChar (u % 16) (by omega), hexVal_lit48]
    rw [ih (by omega) (by simp [units16, h16.2]) g' r (by omega)]
    simp [consFst]
    omega
  | case11 f u rest h1 h2 h3 h4 h5 h6 h7 h8 h9 ih =>
    intro hlen h16 g r hg
    simp only [units16, List.all_cons, Bool.and_eq_true, decide_eq_true_eq] at h16
    obtain ⟨g', rfl⟩ : ∃ g', g = g' + 1 :=
      ⟨g - 1, by simp only [List.length_cons] at hg; omega⟩
    simp only [List.length_cons] at hlen hg
    simp only [escapeGo, if_neg h1, if_neg h2, if_neg h3, if_neg h4, if_neg h5, if_neg h6,
      if_neg h7, if_neg h8, if_pos h9, List.cons_append]
    simp only [parseStrBody, if_neg h1, if_neg h2, if_neg h8]
    rw [ih (by omega) (by simp [units16, h16.2]) g' r (by omega)]
    simp [consFst]
  | case12 f u h1 h2 h3 h4 h5 h6 h7 h8 h9 v rest2 hp ih =>
    intro hlen h16 g r hg
    simp only [units16, List.all_cons, Bool.and_eq_true, decide_eq_true_eq] at h16
    obtain ⟨g', hgg⟩ : ∃ g', g = g' + 2 :=
      ⟨g - 2, by simp only [List.length_cons] at hg; omega⟩
    subst hgg
    simp only [List.length_cons] at hlen hg
    simp only [escapeGo, if_neg h1, if_neg h2, if_neg h3, if_neg h4, if_neg h5, if_neg h6,
      if_neg h7, if_neg h8, if_neg h9, if_pos hp, List.cons_append]
    simp only [parseStrBody, if_neg h1, if_neg h2, if_neg h8]
    rw [if_neg (by omega : ¬v = 34), if_neg (by omega : ¬v = 92), if_neg (by omega : ¬v < 32)]
    rw [ih (by omega) (by simp [units16, h16.2.2]) g' r (by omega)]
    simp [consFst]
  | case13 f u h1 h2 h3 h4 h5 h6 h7 h8 h9 v rest2 hnp ih =>
    intro hlen h16 g r hg
    simp only [units16, List.all_cons, Bool.and_eq_true, decide_eq_true_eq] at h16
    obtain ⟨g', rfl⟩ : ∃ g', g = g' + 1 :=
      ⟨g - 1, by simp only [List.length_cons] at hg; omega⟩
    simp only [List.length_cons] at hlen hg
    simp only [escapeGo, if_neg h1, if_neg h2, if_neg h3, if_neg h4, if_neg h5, if_neg h6,
      if_neg h7, if_neg h8, if_neg h9, if_neg hnp, List.cons_append]
    simp [parseStrBody, readEscape, readHex4,
      hexVal_hexDigitChar (u / 4096) (by omega), hexVal_hexDigitChar (u / 256 % 16) (by omega),
      hexVal_hexDigitChar (u / 16 % 16) (by omega), hexVal_hexDigitChar (u % 16) (by omega)]
    have hlen2 : (v :: rest2).length < f := by simp only [List.length_cons]; omega
    have hg2 : (v :: rest2).length < g' := by simp only [List.length_cons]; omega
    have h162 : units16 (v :: rest2) = true := by
      simp only [units16, List.all_cons, Bool.and_eq_true, decide_eq_true_eq]
      exact h16.2
    rw [ih hlen2 h162 g' r hg2]
    simp [consFst]
    omega
  | case14 f u h1 h2 h3 h4 h5 h6 h7 h8 h9 =>
    intro hlen h16 g r hg
    simp only [units16, List.all_cons, Bool.and_eq_true, decide_eq_true_eq] at h16
    obtain ⟨g', rfl⟩ : ∃ g', g = g' + 2 :=
      ⟨g - 2, by simp only [List.length_cons, List.length_nil] at hg; omega⟩
    simp only [escapeGo, if_neg h1, if_neg h2, if_neg h3, if_neg h4, if_neg h5, if_neg h6,
      if_neg h7, if_neg h8, if_neg h9, List.cons_append]
    simp [parseStrBody, readEscape, readHex4,
      hexVal_hexDigitChar (u / 4096) (by omega), hexVal_hexDigitChar (u / 256 % 16) (by omega),
      hexVal_hexDigitChar (u / 16 % 16) (by omega), hexVal_hexDigitChar (u % 16) (by omega),
      consFst]
    omega

/-- Escaping never shortens a string (each input unit emits at least one
output unit). -/
theorem escapeGo_length_ge :
    ∀ (f : ℕ) (us : List ℕ), us.length < f → us.length ≤ (escapeGo f us).length := by
  intro f us
  induction f, us using escapeGo.induct with
  | case1 us => intro h; omega
  | case2 f => intro _; simp [escapeGo]
  | case3 f rest ih =>
    intro hlen
    simp only [List.length_cons] at hlen ⊢
    simp [escapeGo]
    have := ih (by omega)
    omega
  | case4 f rest h1 ih =>
    intro hlen
    simp only [List.length_cons] at hlen ⊢
    simp [escapeGo, h1]
    have := ih (by omega)
    omega
  | case5 f rest h1 h2 ih =>
    intro hlen
    simp only [List.length_cons] at hlen ⊢
    simp [escapeGo, h1, h2]
    have := ih (by omega)
    omega
  | case6 f rest h1 h2 h3 ih =>
    intro hlen
    simp only [List.length_cons] at hlen ⊢
    simp [escapeGo, h1, h2, h3]
    have := ih (by omega)
    omega
  | case7 f rest h1 h2 h3 h4 ih =>
    intro hlen
    simp only [List.length_cons] at hlen ⊢
    simp [escapeGo, h1, h2, h3, h4]
    have := ih (by omega)
    omega
  | case8 f rest h1 h2 h3 h4 h5 ih =>
    intro hlen
    simp only [List.length_cons] at hlen ⊢
    simp [escapeGo, h1, h2, h3, h4, h5]
    have := ih (by omega)
    omega
  | case9 f rest h1 h2 h3 h4 h5 h6 ih =>
    intro hlen
    simp only [List.length_cons] at hlen ⊢
    simp [escapeGo, h1, h2, h3, h4, h5, h6]
    have := ih (by omega)
    omega
  | case10 f u rest h1 h2 h3 h4 h5 h6 h7 h8 ih =>
    intro hlen
    simp only [List.length_cons] at hlen ⊢
    simp only [escapeGo, if_neg h1, if_neg h2, if_neg h3, if_neg h4, if_neg h5, if_neg h6,
      if_neg h7, if_pos h8, List.length_cons]
    have := ih (by omega)
    omega
  | case11 f u rest h1 h2 h3 h4 h5 h6 h7 h8 h9 ih =>
    intro hlen
    simp only [List.length_cons] at hlen ⊢
    simp only [escapeGo, if_neg h1, if_neg h2, if_neg h3, if_neg h4, if_neg h5, if_neg h6,
      if_neg h7, if_neg h8, if_pos h9, List.length_cons]
    have := ih (by omega)
    omega
  | case12 f u h1 h2 h3 h4 h5 h6 h7 h8 h9 v rest2 hp ih =>
    intro hlen
    simp only [List.length_cons] at hlen ⊢
    simp only [escapeGo, if_neg h1, if_neg h2, if_neg h3, if_neg h4, if_neg h5, if_neg h6,
      if_neg h7, if_neg h8, if_neg h9, if_pos hp, List.length_cons]
    have := ih (by omega)
    omega
  | case13 f u h1 h2 h3 h4 h5 h6 h7 h8 h9 v rest2 hnp ih =>
    intro hlen
    simp only [List.length_cons] at hlen ⊢
    simp only [escapeGo, if_neg h1, if_neg h2, if_neg h3, if_neg h4, if_neg h5, if_neg h6,
      if_neg h7, if_neg h8, if_neg h9, if_neg hnp, List.length_cons]
    have := ih (by simp only [List.length_cons]; omega)
    simp only [List.length_cons] at this
    omega
  | case14 f u h1 h2 h3 h4 h5 h6 h7 h8 h9 =>
    intro hlen
    simp only [escapeGo, if_neg h1, if_neg h2, if_neg h3, if_neg h4, if_neg h5, if_neg h6,
      if_neg h7, if_neg h8, if_neg h9]
    simp

/-- Well-formedness of UTF-16 unit lists is closed under append. -/
theorem wf16_append :
    ∀ a b : List ℕ, wf16 a = true → wf16 b = true → wf16 (a ++ b) = true := by
  intro a
  induction a using wf16.induct with
  | case1 => intro b _ hb; simpa using hb
  | case2 u rest h ih =>
    intro b ha hb
    rw [wf16_cons_bmp rest h] at ha
    rw [List.cons_append, wf16_cons_bmp _ h]
    exact ih b ha hb
  | case3 u h1 h2 v rest2 ih =>
    intro b ha hb
    rw [wf16_pair rest2 h1 h2] at ha
    simp only [Bool.and_eq_true, decide_eq_true_eq] at ha
    rw [List.cons_append, List.cons_append, wf16_pair _ h1 h2]
    simp only [Bool.and_eq_true, decide_eq_true_eq]
    exact ⟨ha.1, ih b ha.2 hb⟩
  | case4 u h1 h2 =>
    intro b ha _
    rw [wf16_lone h1 h2] at ha
    exact absurd ha (by simp)
  | case5 u rest h1 h2 =>
    intro b ha _
    rw [wf16_cons_other rest h1 h2] at ha
    exact absurd ha (by simp)

/-- A list of sub-surrogate units (ASCII in particular) is well-formed. -/
theorem wf16_ascii : ∀ l : List ℕ, (∀ c ∈ l, c < 0xD800) → wf16 l = true := by
  intro l
  induction l with
  | nil => intro _; rfl
  | cons u rest ih =>
    intro h
    rw [wf16_cons_bmp rest (Or.inl (h u (by simp)))]
    exact ih fun c hc => h c (by simp [hc])

/-- Comma-joining well-formed fragments is well-formed. -/
theorem wf16_joinComma :
    ∀ l : List (List ℕ), (∀ x ∈ l, wf16 x = true) → wf16 (joinComma l) = true := by
  intro l
  induction l with
  | nil => intro _; rfl
  | cons x xs ih =>
    intro h
    cases xs with
    | nil => simpa [joinComma] using h x (by simp)
    | cons y ys =>
      show wf16 (x ++ 44 :: joinComma (y :: ys)) = true
      refine wf16_append _ _ (h x (by simp)) ?_
      rw [wf16_cons_bmp _ (by omega)]
      exact ih fun z hz => h z (by simp [hz])

theorem hexDigitChar_lt (n : ℕ) (h : n < 16) : hexDigitChar n < 128 := by
  unfold hexDigitChar; split <;> omega

/-- Escaping a JS string (arbitrary UTF-16 units) yields a well-formed
unit list: lone surrogates are replaced by ASCII escapes, pairs kept. -/
theorem escapeGo_wf16 :
    ∀ (f : ℕ) (us : List ℕ), units16 us = true → wf16 (escapeGo f us) = true := by
  intro f us
  induction f, us using escapeGo.induct with
  | case1 us => intro _; rfl
  | case2 f => intro _; rfl
  | case3 f rest ih =>
    intro h16
    simp only [units16, List.all_cons, Bool.and_eq_true, decide_eq_true_eq] at h16
    simp [escapeGo]
    rw [wf16_cons_bmp _ (by omega), wf16_cons_bmp _ (by omega)]
    exact ih (by simp [units16, h16.2])
  | case4 f rest h1 ih =>
    intro h16
    simp only [units16, List.all_cons, Bool.and_eq_true, decide_eq_true_eq] at h16
    simp [escapeGo, h1]
    rw [wf16_cons_bmp _ (by omega), wf16_cons_bmp _ (by omega)]
    exact ih (by simp [units16, h16.2])
  | case5 f rest h1 h2 ih =>
    intro h16
    simp only [units16, List.all_cons, Bool.and_eq_true, decide_eq_true_eq] at h16
    simp [escapeGo, h1, h2]
    rw [wf16_cons_bmp _ (by omega), wf16_cons_bmp _ (by omega)]
    exact ih (by simp [units16, h16.2])
  | case6 f rest h1 h2 h3 ih =>
    intro h16
    simp only [units16, List.all_cons, Bool.and_eq_true, decide_eq_true_eq] at h16
    simp [escapeGo, h1, h2, h3]
    rw [wf16_cons_bmp _ (by omega), wf16_cons_bmp _ (by omega)]
    exact ih (by simp [units16, h16.2])
  | case7 f rest h1 h2 h3 h4 ih =>
    intro h16
    simp only [units16, List.all_cons, Bool.and_eq_true, decide_eq_true_eq] at h16
    simp [escapeGo, h1, h2, h3, h4]
    rw [wf16_cons_bmp _ (by omega), wf16_cons_bmp _ (by omega)]
    exact ih (by simp [units16, h16.2])
  | case8 f rest h1 h2 h3 h4 h5 ih =>
    intro h16
    simp only [units16, List.all_cons, Bool.and_eq_true, decide_eq_true_eq] at h16
    simp [escapeGo, h1, h2, h3, h4, h5]
    rw [wf16_cons_bmp _ (by omega), wf16_cons_bmp _ (by omega)]
    exact ih (by simp [units16, h16.2])
  | case9 f rest h1 h2 h3 h4 h5 h6 ih =>
    intro h16
    simp only [units16, List.all_cons, Bool.and_eq_true, decide_eq_true_eq] at h16
    simp [escapeGo, h1, h2, h3, h4, h5, h6]
    rw [wf16_cons_bmp _ (by omega), wf16_cons_bmp _ (by omega)]
    exact ih (by simp [units16, h16.2])
  | case10 f u rest h1 h2 h3 h4 h5 h6 h7 h8 ih =>
    intro h16
    simp only [units16, List.all_cons, Bool.and_eq_true, decide_eq_true_eq] at h16
    simp only [escapeGo, if_neg h1, if_neg h2, if_neg h3, if_neg h4, if_neg h5, if_neg h6,
      if_neg h7, if_pos h8]
    have hd1 := hexDigitChar_lt (u / 16) (by omega)
    have hd2 := hexDigitChar_lt (u % 16) (by omega)
    rw [wf16_cons_bmp _ (by omega), wf16_cons_bmp _ (by omega), wf16_cons_bmp _ (by omega),
      wf16_cons_bmp _ (by omega), wf16_cons_bmp _ (by omega), wf16_cons_bmp _ (by omega)]
    exact ih (by simp [units16, h16.2])
  | case11 f u rest h1 h2 h3 h4 h5 h6 h7 h8 h9 ih =>
    intro h16
    simp only [units16, List.all_cons, Bool.and_eq_true, decide_eq_true_eq] at h16
    simp only [escapeGo, if_neg h1, if_neg h2, if_neg h3, if_neg h4, if_neg h5, if_neg h6,
      if_neg h7, if_neg h8, if_pos h9]
    rw [wf16_cons_bmp _ (by omega)]
    exact ih (by simp [units16, h16.2])
  | case12 f u h1 h2 h3 h4 h5 h6 h7 h8 h9 v rest2 hp ih =>
    intro h16
    simp only [units16, List.all_cons, Bool.and_eq_true, decide_eq_true_eq] at h16
    simp only [escapeGo, if_neg h1, if_neg h2, if_neg h3, if_neg h4, if_neg h5, if_neg h6,
      if_neg h7, if_neg h8, if_neg h9, if_pos hp]
    rw [wf16_pair _ (by omega) (by omega)]
    simp only [Bool.and_eq_true, decide_eq_true_eq]
    exact ⟨by omega, ih (by simp [units16, h16.2.2])⟩
  | case13 f u h1 h2 h3 h4 h5 h6 h7 h8 h9 v rest2 hnp ih =>
    intro h16
    simp only [units16, List.all_cons, Bool.and_eq_true, decide_eq_true_eq] at h16
    simp only [escapeGo, if_neg h1, if_neg h2, if_neg h3, if_neg h4, if_neg h5, if_neg h6,
      if_neg h7, if_neg h8, if_neg h9, if_neg hnp]
    have hd1 := hexDigitChar_lt (u / 4096) (by omega)
    have hd2 := hexDigitChar_lt (u / 256 % 16) (by omega)
    have hd3 := hexDigitChar_lt (u / 16 % 16) (by omega)
    have hd4 := hexDigitChar_lt (u % 16) (by omega)
    rw [wf16_cons_bmp _ (by omega), wf16_cons_bmp _ (by omega), wf16_cons_bmp _ (by omega),
      wf16_cons_bmp _ (by omega), wf16_cons_bmp _ (by omega), wf16_cons_bmp _ (by omega)]
    refine ih ?_
    simp only [units16, List.all_cons, Bool.and_eq_true, decide_eq_true_eq]
    exact h16.2
  | case14 f u h1 h2 h3 h4 h5 h6 h7 h8 h9 =>
    intro h16
    simp only [units16, List.all_cons, Bool.and_eq_true, decide_eq_true_eq] at h16
    simp only [escapeGo, if_neg h1, if_neg h2, if_neg h3, if_neg h4, if_neg h5, if_neg h6,
      if_neg h7, if_neg h8, if_neg h9]
    have hd1 := hexDigitChar_lt (u / 4096) (by omega)
    have hd2 := hexDigitChar_lt (u / 256 % 16) (by omega)
    have hd3 := hexDigitChar_lt (u / 16 % 16) (by omega)
    have hd4 := hexDigitChar_lt (u % 16) (by omega)
    refine wf16_ascii _ ?_
    intro c hc
    simp only [List.mem_cons, List.mem_singleton] at hc
    rcases hc with rfl | rfl | rfl | rfl | rfl | rfl | h
    · omega
    · omega
    · omega
    · omega
    · omega
    · omega
    · simp at h

/-- Structure of the emitted decimal digits: a digit head (nonzero unless
the number is zero and the accumulator empty) and digit tail. -/
theorem natLitGo_spec :
    ∀ (f n : ℕ) (acc : List ℕ), n < f →
      ∃ d t, natLitGo f n acc = (48 + d) :: t ∧ d < 10 ∧ (d = 0 → n = 0 ∧ t = acc) ∧
        (∀ c ∈ t, (48 ≤ c ∧ c ≤ 57) ∨ c ∈ acc) := by
  intro f n acc
  induction f, n, acc using natLitGo.induct with
  | case1 n acc => intro h; omega
  | case2 f n acc h =>
    intro _
    refine ⟨n, acc, by simp [natLitGo, h], h, fun _ => ⟨by omega, rfl⟩, fun c hc => Or.inr hc⟩
  | case3 f n acc h ih =>
    intro hf
    obtain ⟨d, t, hEq, hd, h0, hmem⟩ := ih (by omega)
    refine ⟨d, t, ?_, hd, ?_, ?_⟩
    · rw [natLitGo, if_neg h]; exact hEq
    · intro hd0
      exact absurd (h0 hd0).1 (by omega)
    · intro c hc
      rcases hmem c hc with hdig | hacc
      · exact Or.inl hdig
      · simp only [List.mem_cons] at hacc
        rcases hacc with rfl | hacc
        · exact Or.inl ⟨by omega, by omega⟩
        · exact Or.inr hacc

theorem natLit_spec (n : ℕ) :
    ∃ d t, natLit n = (48 + d) :: t ∧ d < 10 ∧ (d = 0 → n = 0 ∧ t = []) ∧
      ∀ c ∈ t, 48 ≤ c ∧ c ≤ 57 := by
  obtain ⟨d, t, hEq, hd, h0, hmem⟩ := natLitGo_spec (n + 1) n [] (by omega)
  exact ⟨d, t, hEq, hd, h0, fun c hc => (hmem c hc).resolve_right (by simp)⟩

/-- Dropping digits from an all-digit list leaves nothing. -/
theorem dropDigits_all :
    ∀ l : List ℕ, (∀ c ∈ l, 48 ≤ c ∧ c ≤ 57) → dropDigits l = [] := by
  intro l
  induction l with
  | nil => intro _; rfl
  | cons u rest ih =>
    intro h
    have hu := h u (by simp)
    rw [dropDigits, if_pos (by simp [isDigitChar]; omega)]
    exact ih fun c hc => h c (by simp [hc])

theorem numBodyValid_natLit (n : ℕ) : numBodyValid (natLit n) = true := by
  obtain ⟨d, t, hEq, hd, h0, hmem⟩ := natLit_spec n
  rw [hEq]
  by_cases hd0 : d = 0
  · subst hd0
    obtain ⟨-, rfl⟩ := h0 rfl
    decide
  · rw [numBodyValid, if_neg (by omega), if_pos (by simp [isDigitChar]; omega)]
    rw [dropDigits_all t hmem]
    rfl

theorem numTokenValid_intLit (z : ℤ) : numTokenValid (intLit z) = true := by
  unfold intLit
  split
  · rw [numTokenValid, if_pos rfl]
    exact numBodyValid_natLit _
  · obtain ⟨d, t, hEq, hd, h0, hmem⟩ := natLit_spec z.natAbs
    rw [hEq, numTokenValid, if_neg (by omega)]
    rw [← hEq]
    exact numBodyValid_natLit _

theorem intLit_numChar (z : ℤ) : ∀ c ∈ intLit z, isNumChar c = true := by
  obtain ⟨d, t, hEq, hd, h0, hmem⟩ := natLit_spec z.natAbs
  unfold intLit
  split
  · intro c hc
    simp only [List.mem_cons] at hc
    rcases hc with rfl | hc
    · decide
    · rw [hEq] at hc
      simp only [List.mem_cons] at hc
      rcases hc with rfl | hc
      · simp [isNumChar]; omega
      · have := hmem c hc
        simp [isNumChar]; omega
  · intro c hc
    rw [hEq] at hc
    simp only [List.mem_cons] at hc
    rcases hc with rfl | hc
    · simp [isNumChar]; omega
    · have := hmem c hc
      simp [isNumChar]; omega

/-- A non-whitespace head passes `skipWs` untouched. -/
theorem skipWs_cons (u : ℕ) (l : List ℕ) (h : ¬(u = 32 ∨ u = 9 ∨ u = 10 ∨ u = 13)) :
    skipWs (u :: l) = u :: l := by
  rw [skipWs, if_neg h]

/-- Maximal munch stops exactly at the token boundary. -/
theorem scanNum_token :
    ∀ (tok rest : List ℕ), (∀ c ∈ tok, isNumChar c = true) → notNumHead rest →
      scanNum (tok ++ rest) = (tok, rest) := by
  intro tok
  induction tok with
  | nil =>
    intro rest _ hr
    cases rest with
    | nil => rfl
    | cons c r => simp only [List.nil_append, scanNum, notNumHead] at hr ⊢; rw [if_neg (by simp [hr])]
  | cons u tok' ih =>
    intro rest h hr
    rw [List.cons_append, scanNum, if_pos (by simp [h u (by simp)])]
    rw [ih rest (fun c hc => h c (by simp [hc])) hr]

/-- Parsing a serialized integer literal as a JSON value. -/
theorem parseStep_val_num (f : ℕ) (z : ℤ) (rest : List ℕ) (h : notNumHead rest) :
    parseStep (f + 1) .val (intLit z ++ rest) = some (.num (intLit z), rest) := by
  have hscan := scanNum_token (intLit z) rest (intLit_numChar z) h
  have hvalid := numTokenValid_intLit z
  obtain ⟨d, t, hEq, hd, h0, hmem⟩ := natLit_spec z.natAbs
  by_cases hz : z < 0
  · rw [intLit, if_pos hz] at hscan hvalid ⊢
    rw [List.cons_append] at hscan ⊢
    simp only [parseStep]
    rw [skipWs_cons _ _ (by decide)]
    simp only [reduceIte, decide_eq_true_eq]
    rw [hscan]
    simp [hvalid, isNumChar]
  · rw [intLit, if_neg hz] at hscan hvalid ⊢
    rw [hEq] at hscan hvalid ⊢
    rw [List.cons_append] at hscan ⊢
    simp only [parseStep]
    rw [skipWs_cons _ _ (by omega)]
    simp only []
    rw [if_neg (by omega : ¬(48 + d) = 123), if_neg (by omega : ¬(48 + d) = 91),
      if_neg (by omega : ¬(48 + d) = 34), if_neg (by omega : ¬(48 + d) = 116),
      if_neg (by omega : ¬(48 + d) = 102), if_neg (by omega : ¬(48 + d) = 110),
      if_pos (show isNumChar (48 + d) = true by simp [isNumChar]; omega)]
    rw [hscan]
    simp [hvalid]

/-- Parsing a serialized (escaped, quoted) string as a JSON value. -/
theorem parseStep_val_str (f : ℕ) (s : List ℕ) (rest : List ℕ) (h16 : units16 s = true) :
    parseStep (f + 1) .val (0x22 :: escapeUnits s ++ 0x22 :: rest) = some (.str s, rest) := by
  rw [List.cons_append]
  simp only [parseStep]
  rw [skipWs_cons _ _ (by decide)]
  simp only [reduceIte, decide_eq_true_eq]
  have hlen := escapeGo_length_ge (s.length + 1) s (by omega)
  rw [show escapeUnits s = escapeGo (s.length + 1) s from rfl]
  rw [parseStrBody_escapeGo (s.length + 1) s (by omega) h16 _ rest
    (by simp only [List.length_append, List.length_cons]; omega)]
  simp

theorem serval_str (c : ℕ) (s : List ℕ) (h16 : units16 s = true) :
    SerVal c (.str s) (0x22 :: escapeUnits s ++ [0x22]) := by
  intro g rest _ _
  rw [List.append_assoc, List.singleton_append]
  exact parseStep_val_str g s rest h16

theorem serval_num (c : ℕ) (z : ℤ) : SerVal c (.num (intLit z)) (intLit z) :=
  fun g rest _ hr => parseStep_val_num g z rest hr

theorem serMembers_eq_map (d : ℕ) :
    ∀ ms : List (List ℕ × Json),
      serMembers d ms = ms.map fun m => 0x22 :: escapeUnits m.1 ++ [0x22, 0x3A] ++ stringifyJsonF d m.2 := by
  intro ms
  induction ms with
  | nil => rfl
  | cons m t ih => simp [serMembers, ih]

theorem joinComma_cons_cons (x y : List ℕ) (l : List (List ℕ)) :
    joinComma (x :: y :: l) = x ++ 44 :: joinComma (y :: l) := rfl

/-- The object-member loop of the parser consumes a serialized member
list and the closing brace, returning the members in order. -/
theorem parseStep_members_gen (c d : ℕ) :
    ∀ ms : List (List ℕ × Json),
      (∀ m ∈ ms, units16 m.1 = true ∧ SerVal c m.2 (stringifyJsonF d m.2)) →
      ∀ (f : ℕ) (rest : List ℕ), ms ≠ [] → ms.length + c < f →
      parseStep f .members (joinComma (serMembers d ms) ++ 0x7D :: rest) = some (.obj ms, rest) := by
  intro ms
  induction ms with
  | nil => intro _ f rest hne; exact absurd rfl hne
  | cons m tail ih =>
    intro hall f rest _ hf
    obtain ⟨k, v⟩ := m
    have hm := hall (k, v) (by simp)
    simp only [List.length_cons] at hf
    obtain ⟨g, rfl⟩ : ∃ g, f = g + 1 := ⟨f - 1, by omega⟩
    have hesc := escapeGo_length_ge (k.length + 1) k (by omega)
    cases tail with
    | nil =>
      simp only [serMembers, joinComma, List.append_assoc, List.cons_append, List.nil_append]
      simp only [parseStep]
      rw [skipWs_cons _ _ (by decide)]
      simp only []
      rw [show escapeUnits k = escapeGo (k.length + 1) k from rfl]
      rw [parseStrBody_escapeGo (k.length + 1) k (by omega) hm.1
        ((escapeGo (k.length + 1) k ++ 34 :: 58 :: (stringifyJsonF d v ++ 125 :: rest)).length + 1)
        (58 :: (stringifyJsonF d v ++ 125 :: rest))
        (by simp only [List.length_append, List.length_cons]; omega)]
      simp only []
      rw [skipWs_cons _ _ (by decide)]
      simp only []
      obtain ⟨g2, rfl⟩ : ∃ g2, g = g2 + 1 := ⟨g - 1, by omega⟩
      rw [hm.2 g2 (125 :: rest) (by omega) (by simp [notNumHead, isNumChar])]
      simp only []
      rw [skipWs_cons _ _ (by decide)]
    | cons m2 tail' =>
      rw [show serMembers d ((k, v) :: m2 :: tail') =
        (0x22 :: escapeUnits k ++ [0x22, 0x3A] ++ stringifyJsonF d v) ::
          serMembers d (m2 :: tail') from rfl]
      rw [show serMembers d (m2 :: tail') =
        (0x22 :: escapeUnits m2.1 ++ [0x22, 0x3A] ++ stringifyJsonF d m2.2) ::
          serMembers d tail' from rfl]
      rw [joinComma_cons_cons]
      rw [← show serMembers d (m2 :: tail') =
        (0x22 :: escapeUnits m2.1 ++ [0x22, 0x3A] ++ stringifyJsonF d m2.2) ::
          serMembers d tail' from rfl]
      simp only [List.append_assoc, List.cons_append, List.nil_append]
      simp only [parseStep]
      rw [skipWs_cons _ _ (by decide)]
      simp only []
      rw [show escapeUnits k = escapeGo (k.length + 1) k from rfl]
      rw [parseStrBody_escapeGo (k.length + 1) k (by omega) hm.1
        ((escapeGo (k.length + 1) k ++ 34 :: 58 :: (stringifyJsonF d v ++ 44 ::
          (joinComma (serMembers d (m2 :: tail')) ++ 125 :: rest))).length + 1)
        (58 :: (stringifyJsonF d v ++ 44 :: (joinComma (serMembers d (m2 :: tail')) ++ 125 :: rest)))
        (by simp only [List.length_append, List.length_cons]; omega)]
      simp only []
      rw [skipWs_cons _ _ (by decide)]
      simp only []
      obtain ⟨g2, rfl⟩ : ∃ g2, g = g2 + 1 := ⟨g - 1, by omega⟩
      rw [hm.2 g2 (44 :: (joinComma (serMembers d (m2 :: tail')) ++ 125 :: rest))
        (by omega) (by simp [notNumHead, isNumChar])]
      simp only []
      rw [skipWs_cons _ _ (by decide)]
      have hih := ih (fun m hmm => hall m (by simp [hmm])) (g2 + 1) rest (by simp) (by omega)
      simp [hih]

/-- A serialized nonempty object whose member values parse at fuel `c0`
parses as a JSON value at fuel `|ms| + c0 + 1`. -/
theorem serval_obj (c0 d : ℕ) (ms : List (List ℕ × Json)) (hne : ms ≠ [])
    (hall : ∀ m ∈ ms, units16 m.1 = true ∧ SerVal c0 m.2 (stringifyJsonF d m.2)) :
    SerVal (ms.length + c0 + 1) (.obj ms) (stringifyJsonF (d + 1) (.obj ms)) := by
  intro g rest hc _
  have hser : stringifyJsonF (d + 1) (.obj ms) = 0x7B :: joinComma (serMembers d ms) ++ [0x7D] := by
    rw [serMembers_eq_map]; rfl
  rw [hser, List.append_assoc, List.singleton_append, List.cons_append]
  simp only [parseStep]
  rw [skipWs_cons _ _ (by decide)]
  simp only []
  obtain ⟨m, t, rfl⟩ : ∃ m t, ms = m :: t := by
    cases ms with
    | nil => exact absurd rfl hne
    | cons m t => exact ⟨m, t, rfl⟩
  have hX : ∃ X, joinComma (serMembers d (m :: t)) ++ 0x7D :: rest = 0x22 :: X := by
    cases t with
    | nil =>
      exact ⟨escapeUnits m.1 ++ 34 :: 58 :: (stringifyJsonF d m.2 ++ 125 :: rest),
        by simp [serMembers, joinComma]⟩
    | cons m2 t2 =>
      refine ⟨escapeUnits m.1 ++ 34 :: 58 ::
        (stringifyJsonF d m.2 ++ 44 :: (joinComma (serMembers d (m2 :: t2)) ++ 125 :: rest)), ?_⟩
      rw [show serMembers d (m :: m2 :: t2) =
            (0x22 :: escapeUnits m.1 ++ [0x22, 0x3A] ++ stringifyJsonF d m.2) ::
              serMembers d (m2 :: t2) from rfl,
          show serMembers d (m2 :: t2) =
            (0x22 :: escapeUnits m2.1 ++ [0x22, 0x3A] ++ stringifyJsonF d m2.2) ::
              serMembers d t2 from rfl,
          joinComma_cons_cons,
          ← show serMembers d (m2 :: t2) =
            (0x22 :: escapeUnits m2.1 ++ [0x22, 0x3A] ++ stringifyJsonF d m2.2) ::
              serMembers d t2 from rfl]
      simp
  obtain ⟨X, hX⟩ := hX
  rw [hX, skipWs_cons _ _ (by decide)]
  show parseStep g .members (0x22 :: X) = some (.obj (m :: t), rest)
  rw [← hX]
  simp only [List.length_cons] at hc
  exact parseStep_members_gen c0 d (m :: t) hall g rest (by simp) (by simp; omega)

theorem jsonOfSchemePayload_eq (q : WireSchemePayload) :
    jsonOfSchemePayload q = .obj (innerMembers q) := rfl

theorem jsonOfPayload_eq (p : WirePaymentPayload) :
    jsonOfPayload p = .obj (outerMembers p) := rfl

theorem mem_optMember {m : List ℕ × Json} {k : List ℕ} {o : Option (List ℕ)}
    (h : m ∈ optMember k o) : ∃ v, o = some v ∧ m = (k, .str v) := by
  cases o with
  | none => simp [optMember] at h
  | some v =>
    simp only [optMember, List.mem_singleton] at h
    exact ⟨v, rfl, h⟩

theorem optMember_length_le (k : List ℕ) (o : Option (List ℕ)) :
    (optMember k o).length ≤ 1 := by
  cases o <;> simp [optMember]

theorem innerMembers_ne (q : WireSchemePayload) : innerMembers q ≠ [] := by
  simp [innerMembers]

theorem innerMembers_len_le (q : WireSchemePayload) : (innerMembers q).length ≤ 8 := by
  simp only [innerMembers, List.length_append, List.length_cons, List.length_nil]
  have h1 := optMember_length_le (unitsOfAscii "nonce") q.nonce
  have h2 := optMember_length_le (unitsOfAscii "mint") q.mint
  have h3 := optMember_length_le (unitsOfAscii "fromTokenAccount") q.fromTokenAccount
  have h4 := optMember_length_le (unitsOfAscii "toTokenAccount") q.toTokenAccount
  omega

theorem hall_inner (q : WireSchemePayload) (h : wfSchemePayload q = true) :
    ∀ m ∈ innerMembers q, units16 m.1 = true ∧ SerVal 0 m.2 (stringifyJsonF 3 m.2) := by
  simp only [wfSchemePayload, Bool.and_eq_true] at h
  obtain ⟨⟨⟨⟨⟨⟨h1, h2⟩, h3⟩, h4⟩, h5⟩, h6⟩, h7⟩ := h
  intro m hm
  simp only [innerMembers, List.append_assoc, List.mem_append, List.mem_cons,
    List.not_mem_nil, or_false] at hm
  rcases hm with (rfl | rfl | rfl | rfl) | hm | hm | hm | hm
  · exact ⟨show units16 (unitsOfAscii "from") = true by decide, by
      rw [show stringifyJsonF 3 (.str q.fromAddr) = 0x22 :: escapeUnits q.fromAddr ++ [0x22]
        from rfl]
      exact serval_str 0 _ h1⟩
  · exact ⟨show units16 (unitsOfAscii "signature") = true by decide, by
      rw [show stringifyJsonF 3 (.str q.signature) = 0x22 :: escapeUnits q.signature ++ [0x22]
        from rfl]
      exact serval_str 0 _ h2⟩
  · exact ⟨show units16 (unitsOfAscii "amount") = true by decide, by
      rw [show stringifyJsonF 3 (.str q.amount) = 0x22 :: escapeUnits q.amount ++ [0x22]
        from rfl]
      exact serval_str 0 _ h3⟩
  · exact ⟨show units16 (unitsOfAscii "timestamp") = true by decide, by
      rw [show stringifyJsonF 3 (.num (intLit q.timestamp)) = intLit q.timestamp from rfl]
      exact serval_num 0 _⟩
  · obtain ⟨v, ho, rfl⟩ := mem_optMember hm
    rw [ho] at h4
    exact ⟨show units16 (unitsOfAscii "nonce") = true by decide, by
      rw [show stringifyJsonF 3 (.str v) = 0x22 :: escapeUnits v ++ [0x22] from rfl]
      exact serval_str 0 _ (by simpa [opt16] using h4)⟩
  · obtain ⟨v, ho, rfl⟩ := mem_optMember hm
    rw [ho] at h5
    exact ⟨show units16 (unitsOfAscii "mint") = true by decide, by
      rw [show stringifyJsonF 3 (.str v) = 0x22 :: escapeUnits v ++ [0x22] from rfl]
      exact serval_str 0 _ (by simpa [opt16] using h5)⟩
  · obtain ⟨v, ho, rfl⟩ := mem_optMember hm
    rw [ho] at h6
    exact ⟨show units16 (unitsOfAscii "fromTokenAccount") = true by decide, by
      rw [show stringifyJsonF 3 (.str v) = 0x22 :: escapeUnits v ++ [0x22] from rfl]
      exact serval_str 0 _ (by simpa [opt16] using h6)⟩
  · obtain ⟨v, ho, rfl⟩ := mem_optMember hm
    rw [ho] at h7
    exact ⟨show units16 (unitsOfAscii "toTokenAccount") = true by decide, by
      rw [show stringifyJsonF 3 (.str v) = 0x22 :: escapeUnits v ++ [0x22] from rfl]
      exact serval_str 0 _ (by simpa [opt16] using h7)⟩

theorem hall_outer (p : WirePaymentPayload) (h : wfPayload p = true) :
    ∀ m ∈ outerMembers p, units16 m.1 = true ∧
      SerVal ((innerMembers p.payload).length + 1) m.2 (stringifyJsonF 4 m.2) := by
  simp only [wfPayload, Bool.and_eq_true] at h
  obtain ⟨⟨hs, hn⟩, hq⟩ := h
  intro m hm
  simp only [outerMembers, List.mem_cons, List.not_mem_nil, or_false] at hm
  rcases hm with rfl | rfl | rfl | rfl
  · exact ⟨show units16 (unitsOfAscii "x402Version") = true by decide, by
      rw [show stringifyJsonF 4 (.num (intLit p.x402Version)) = intLit p.x402Version from rfl]
      exact serval_num _ _⟩
  · exact ⟨show units16 (unitsOfAscii "scheme") = true by decide, by
      rw [show stringifyJsonF 4 (.str p.scheme) = 0x22 :: escapeUnits p.scheme ++ [0x22]
        from rfl]
      exact serval_str _ _ hs⟩
  · exact ⟨show units16 (unitsOfAscii "network") = true by decide, by
      rw [show stringifyJsonF 4 (.str p.network) = 0x22 :: escapeUnits p.network ++ [0x22]
        from rfl]
      exact serval_str _ _ hn⟩
  · refine ⟨show units16 (unitsOfAscii "payload") = true by decide, ?_⟩
    rw [jsonOfSchemePayload_eq]
    have := serval_obj 0 3 (innerMembers p.payload) (innerMembers_ne _) (hall_inner _ hq)
    simpa using this

theorem wf16_intLit (z : ℤ) : wf16 (intLit z) = true := by
  refine wf16_ascii _ ?_
  intro c hc
  have := intLit_numChar z c hc
  simp [isNumChar] at this
  omega

/-- A quoted, escaped string fragment is well-formed UTF-16. -/
theorem wf16_strText (s : List ℕ) (h : units16 s = true) :
    wf16 (0x22 :: escapeUnits s ++ [0x22]) = true := by
  refine wf16_append _ _ ?_ (by decide)
  rw [wf16_cons_bmp _ (by omega)]
  exact escapeGo_wf16 _ _ h

theorem wf16_memberText (d : ℕ) (k : List ℕ) (v : Json) (hk : units16 k = true)
    (hv : wf16 (stringifyJsonF d v) = true) :
    wf16 (0x22 :: escapeUnits k ++ [0x22, 0x3A] ++ stringifyJsonF d v) = true := by
  rw [List.append_assoc]
  refine wf16_append _ _ ?_ ?_
  · rw [wf16_cons_bmp _ (by omega)]
    exact escapeGo_wf16 _ _ hk
  · rw [List.cons_append, List.cons_append, List.nil_append,
      wf16_cons_bmp _ (by omega), wf16_cons_bmp _ (by omega)]
    exact hv

theorem mem_serMembers {d : ℕ} {x : List ℕ} :
    ∀ {ms : List (List ℕ × Json)}, x ∈ serMembers d ms →
      ∃ m ∈ ms, x = 0x22 :: escapeUnits m.1 ++ [0x22, 0x3A] ++ stringifyJsonF d m.2 := by
  intro ms
  induction ms with
  | nil => intro h; simp [serMembers] at h
  | cons m t ih =>
    intro h
    simp only [serMembers, List.mem_cons] at h
    rcases h with rfl | h
    · exact ⟨m, by simp, rfl⟩
    · obtain ⟨m2, hm2, rfl⟩ := ih h
      exact ⟨m2, by simp [hm2], rfl⟩

/-- A serialized object is well-formed UTF-16 when keys have UTF-16
units and value texts are well-formed. -/
theorem wf16_objText (d : ℕ) (ms : List (List ℕ × Json))
    (hkeys : ∀ m ∈ ms, units16 m.1 = true)
    (hvals : ∀ m ∈ ms, wf16 (stringifyJsonF d m.2) = true) :
    wf16 (0x7B :: joinComma (serMembers d ms) ++ [0x7D]) = true := by
  rw [List.cons_append, wf16_cons_bmp _ (by omega)]
  refine wf16_append _ _ ?_ (by decide)
  refine wf16_joinComma _ ?_
  intro x hx
  obtain ⟨m, hmem, rfl⟩ := mem_serMembers hx
  exact wf16_memberText d m.1 m.2 (hkeys m hmem) (hvals m hmem)

/-- The full serialized payload text is well-formed UTF-16. -/
theorem wf16_payload_text (p : WirePaymentPayload) (h : wfPayload p = true) :
    wf16 (stringifyJsonF 5 (jsonOfPayload p)) = true := by
  simp only [wfPayload, Bool.and_eq_true] at h
  obtain ⟨⟨hs, hn⟩, hq⟩ := h
  simp only [wfSchemePayload, Bool.and_eq_true] at hq
  obtain ⟨⟨⟨⟨⟨⟨h1, h2⟩, h3⟩, h4⟩, h5⟩, h6⟩, h7⟩ := hq
  rw [jsonOfPayload_eq]
  rw [show stringifyJsonF 5 (Json.obj (outerMembers p)) =
    0x7B :: joinComma (serMembers 4 (outerMembers p)) ++ [0x7D] by rw [serMembers_eq_map]; rfl]
  refine wf16_objText 4 _ ?_ ?_
  · intro m hm
    simp only [outerMembers, List.mem_cons, List.not_mem_nil, or_false] at hm
    rcases hm with rfl | rfl | rfl | rfl
    · exact show units16 (unitsOfAscii "x402Version") = true by decide
    · exact show units16 (unitsOfAscii "scheme") = true by decide
    · exact show units16 (unitsOfAscii "network") = true by decide
    · exact show units16 (unitsOfAscii "payload") = true by decide
  · intro m hm
    simp only [outerMembers, List.mem_cons, List.not_mem_nil, or_false] at hm
    rcases hm with rfl | rfl | rfl | rfl
    · rw [show stringifyJsonF 4 (.num (intLit p.x402Version)) = intLit p.x402Version from rfl]
      exact wf16_intLit _
    · rw [show stringifyJsonF 4 (.str p.scheme) = 0x22 :: escapeUnits p.scheme ++ [0x22]
        from rfl]
      exact wf16_strText _ hs
    · rw [show stringifyJsonF 4 (.str p.network) = 0x22 :: escapeUnits p.network ++ [0x22]
        from rfl]
      exact wf16_strText _ hn
    · rw [jsonOfSchemePayload_eq]
      rw [show stringifyJsonF 4 (Json.obj (innerMembers p.payload)) =
        0x7B :: joinComma (serMembers 3 (innerMembers p.payload)) ++ [0x7D] by
          rw [serMembers_eq_map]; rfl]
      refine wf16_objText 3 _ ?_ ?_
      · intro m hm
        simp only [innerMembers, List.append_assoc, List.mem_append, List.mem_cons,
          List.not_mem_nil, or_false] at hm
        rcases hm with (rfl | rfl | rfl | rfl) | hm | hm | hm | hm
        · exact show units16 (unitsOfAscii "from") = true by decide
        · exact show units16 (unitsOfAscii "signature") = true by decide
        · exact show units16 (unitsOfAscii "amount") = true by decide
        · exact show units16 (unitsOfAscii "timestamp") = true by decide
        · obtain ⟨v, ho, rfl⟩ := mem_optMember hm
          exact show units16 (unitsOfAscii "nonce") = true by decide
        · obtain ⟨v, ho, rfl⟩ := mem_optMember hm
          exact show units16 (unitsOfAscii "mint") = true by decide
        · obtain ⟨v, ho, rfl⟩ := mem_optMember hm
          exact show units16 (unitsOfAscii "fromTokenAccount") = true by decide
        · obtain ⟨v, ho, rfl⟩ := mem_optMember hm
          exact show units16 (unitsOfAscii "toTokenAccount") = true by decide
      · intro m hm
        simp only [innerMembers, List.append_assoc, List.mem_append, List.mem_cons,
          List.not_mem_nil, or_false] at hm
        rcases hm with (rfl | rfl | rfl | rfl) | hm | hm | hm | hm
        · rw [show stringifyJsonF 3 (.str p.payload.fromAddr) =
            0x22 :: escapeUnits p.payload.fromAddr ++ [0x22] from rfl]
          exact wf16_strText _ h1
        · rw [show stringifyJsonF 3 (.str p.payload.signature) =
            0x22 :: escapeUnits p.payload.signature ++ [0x22] from rfl]
          exact wf16_strText _ h2
        · rw [show stringifyJsonF 3 (.str p.payload.amount) =
            0x22 :: escapeUnits p.payload.amount ++ [0x22] from rfl]
          exact wf16_strText _ h3
        · rw [show stringifyJsonF 3 (.num (intLit p.payload.timestamp)) =
            intLit p.payload.timestamp from rfl]
          exact wf16_intLit _
        · obtain ⟨v, ho, rfl⟩ := mem_optMember hm
          rw [ho] at h4
          rw [show stringifyJsonF 3 (.str v) = 0x22 :: escapeUnits v ++ [0x22] from rfl]
          exact wf16_strText _ (by simpa [opt16] using h4)
        · obtain ⟨v, ho, rfl⟩ := mem_optMember hm
          rw [ho] at h5
          rw [show stringifyJsonF 3 (.str v) = 0x22 :: escapeUnits v ++ [0x22] from rfl]
          exact wf16_strText _ (by simpa [opt16] using h5)
        · obtain ⟨v, ho, rfl⟩ := mem_optMember hm
          rw [ho] at h6
          rw [show stringifyJsonF 3 (.str v) = 0x22 :: escapeUnits v ++ [0x22] from rfl]
          exact wf16_strText _ (by simpa [opt16] using h6)
        · obtain ⟨v, ho, rfl⟩ := mem_optMember hm
          rw [ho] at h7
          rw [show stringifyJsonF 3 (.str v) = 0x22 :: escapeUnits v ++ [0x22] from rfl]
          exact wf16_strText _ (by simpa [opt16] using h7)

theorem intLit_length_pos (z : ℤ) : 1 ≤ (intLit z).length := by
  obtain ⟨d, t, hEq, -, -, -⟩ := natLit_spec z.natAbs
  unfold intLit
  split
  · simp
  · rw [hEq]; simp

/-- The serialized payload text is long enough to fuel its own parse. -/
theorem payload_text_len (p : WirePaymentPayload) :
    (innerMembers p.payload).length + 6 ≤ (stringifyJsonF 5 (jsonOfPayload p)).length := by
  have hinner := innerMembers_len_le p.payload
  have hint := intLit_length_pos p.x402Version
  have h11 : (escapeUnits (unitsOfAscii "x402Version")).length = 11 := by decide
  rw [jsonOfPayload_eq]
  rw [show stringifyJsonF 5 (Json.obj (outerMembers p)) =
    0x7B :: joinComma (serMembers 4 (outerMembers p)) ++ [0x7D] by rw [serMembers_eq_map]; rfl]
  rw [show serMembers 4 (outerMembers p) =
    [0x22 :: escapeUnits (unitsOfAscii "x402Version") ++ [0x22, 0x3A] ++ intLit p.x402Version,
      0x22 :: escapeUnits (unitsOfAscii "scheme") ++ [0x22, 0x3A] ++
        (0x22 :: escapeUnits p.scheme ++ [0x22]),
      0x22 :: escapeUnits (unitsOfAscii "network") ++ [0x22, 0x3A] ++
        (0x22 :: escapeUnits p.network ++ [0x22]),
      0x22 :: escapeUnits (unitsOfAscii "payload") ++ [0x22, 0x3A] ++
        stringifyJsonF 4 (jsonOfSchemePayload p.payload)] from rfl]
  simp only [joinComma, List.length_append, List.length_cons, List.length_nil]
  omega

/-- The serialized payload text parses back to the payload value. -/
theorem parseJson_payload (p : WirePaymentPayload) (h : wfPayload p = true) :
    parseJson (stringifyJsonF 5 (jsonOfPayload p)) = some (jsonOfPayload p) := by
  have hlen := payload_text_len p
  have hobj := serval_obj ((innerMembers p.payload).length + 1) 4 (outerMembers p)
    (by simp [outerMembers]) (hall_outer p h)
  have hmain := hobj ((stringifyJsonF 5 (Json.obj (outerMembers p))).length) []
    (by rw [jsonOfPayload_eq] at hlen
        have h4 : (outerMembers p).length = 4 := rfl
        omega)
    trivial
  rw [List.append_nil] at hmain
  have hmain2 : parseStep ((stringifyJsonF 5 (Json.obj (outerMembers p))).length + 1) .val
      (stringifyJsonF 5 (Json.obj (outerMembers p))) = some (Json.obj (outerMembers p), []) :=
    hmain
  unfold parseJson
  rw [jsonOfPayload_eq, hmain2]
  simp [skipWs]

/-- C8: for every syntactically well-formed payment payload (every
string field a list of UTF-16 code units), decoding the encoding —
base64 of the UTF-8 bytes of the JSON serialization — recovers exactly
the payload's JSON value: `decodePaymentPayload (encodePaymentPayload p)
= .ok (jsonOfPayload p)`. -/
theorem decode_encode_roundtrip (p : WirePaymentPayload) (h : wfPayload p = true) :
    decodePaymentPayload (encodePaymentPayload p) = .ok (jsonOfPayload p) := by
  unfold decodePaymentPayload encodePaymentPayload
  rw [transport_roundtrip _ (wf16_payload_text p h)]
  rw [parseJson_payload p h]

/-- Witness: a concrete SPL-style payload (with a nonce and a mint) is
well-formed and round-trips. -/
theorem decode_encode_roundtrip_witness :
    wfPayload
      { x402Version := 1
        scheme := unitsOfAscii "solana-spl"
        network := unitsOfAscii "solana-devnet"
        payload :=
          { fromAddr := unitsOfAscii "F8gPSWhXqYqrfSbRbBhBMZMCMUYLGkoXKbnhWxwS3Qcu"
            signature := unitsOfAscii "3AsdfTestSig"
            amount := unitsOfAscii "1000000"
            timestamp := 1700000000000
            nonce := some (unitsOfAscii "n-1")
            mint := some (unitsOfAscii "4zMMC9srt5Ri5X14GAgXhaHii3GnPAEERYPJgZJDncDU") } } = true ∧
    decodePaymentPayload (encodePaymentPayload
      { x402Version := 1
        scheme := unitsOfAscii "solana-spl"
        network := unitsOfAscii "solana-devnet"
        payload :=
          { fromAddr := unitsOfAscii "F8gPSWhXqYqrfSbRbBhBMZMCMUYLGkoXKbnhWxwS3Qcu"
            signature := unitsOfAscii "3AsdfTestSig"
            amount := unitsOfAscii "1000000"
            timestamp := 1700000000000
            nonce := some (unitsOfAscii "n-1")
            mint := some (unitsOfAscii "4zMMC9srt5Ri5X14GAgXhaHii3GnPAEERYPJgZJDncDU") } }) =
      .ok (jsonOfPayload
      { x402Version := 1
        scheme := unitsOfAscii "solana-spl"
        network := unitsOfAscii "solana-devnet"
        payload :=
          { fromAddr := unitsOfAscii "F8gPSWhXqYqrfSbRbBhBMZMCMUYLGkoXKbnhWxwS3Qcu"
            signature := unitsOfAscii "3AsdfTestSig"
            amount := unitsOfAscii "1000000"
            timestamp := 1700000000000
            nonce := some (unitsOfAscii "n-1")
            mint := some (unitsOfAscii "4zMMC9srt5Ri5X14GAgXhaHii3GnPAEERYPJgZJDncDU") } }) :=
  ⟨by decide, decode_encode_roundtrip _ (by decide)⟩

/-- C10: `decodePaymentPayload` raises `INVALID_PAYLOAD` exactly when
the base64-decoded text fails to parse as JSON; a successful parse is
returned as-is with no shape validation — inputs decoding to `null`, a
number, a bare string, or an object without the scheme/network/payload
fields are all returned successfully. -/
theorem decode_no_shape_validation :
    (∀ units : List ℕ,
      decodePaymentPayload units = .error .invalidPayload ↔
        parseJson (utf8DecodeUnits (base64DecodeLenient units)) = none) ∧
    decodePaymentPayload (unitsOfAscii "bnVsbA==") = .ok .null ∧
    decodePaymentPayload (unitsOfAscii "NDI=") = .ok (.num (unitsOfAscii "42")) ∧
    decodePaymentPayload (unitsOfAscii "InN0ciI=") = .ok (.str (unitsOfAscii "str")) ∧
    decodePaymentPayload (unitsOfAscii "eyJmb28iOjF9") =
      .ok (.obj [(unitsOfAscii "foo", .num (unitsOfAscii "1"))]) ∧
    decodePaymentPayload (unitsOfAscii "###") = .error .invalidPayload := by
  refine ⟨?_, by rfl, by rfl, by rfl, by rfl, by rfl⟩
  intro units
  unfold decodePaymentPayload
  cases hp : parseJson (utf8DecodeUnits (base64DecodeLenient units)) with
  | none => simp
  | some j => simp
